import Mathlib

/-!
Verification of the terraformgraph inference and layout pipeline.

This file gives a shallow embedding, in Lean, of the core pipeline of the
repository (relationship extraction helpers from parser.py, the resource
aggregator and VPC structure builder from aggregator.py, the name helpers
from variable_resolver.py, and the layout engine from layout.py), and
proves or refutes the specified properties about it.

Modelling conventions:
* Python attribute values (typed Any in the source) are modelled by the
  inductive type Attr (strings, ints, bools, None, lists, dicts).
* Python dicts are modelled as association lists in key-insertion order;
  assignment updates an existing key in place or appends a new one, which
  matches CPython dict semantics.
* Python sets that are only tested for membership or length are modelled
  as deduplicated lists; where the source iterates a set (an order that is
  fixed within one interpreter process), iteration is modelled in
  insertion order.
* Floats are modelled by rationals; int() truncation is modelled exactly.
-/

namespace TG

/-- Attribute values as produced by the upstream HCL parser (Python Any). -/
inductive Attr where
  | str (s : String)
  | int (n : Int)
  | bool (b : Bool)
  | none
  | list (items : List Attr)
  | dict (entries : List (String × Attr))

/-- Python truthiness, bool(x), for attribute values. -/
def Attr.truthy : Attr → Bool
  | .str s => !s.isEmpty
  | .int n => n != 0
  | .bool b => b
  | .none => false
  | .list l => !l.isEmpty
  | .dict d => !d.isEmpty

/-- Whether the value is Python None. -/
def Attr.isNone : Attr → Bool
  | .none => true
  | _ => false

mutual
/-- Python equality (==) on attribute values.  Bools compare equal to the
ints 0/1 as in Python; values of unrelated types compare unequal. -/
def pyEq : Attr → Attr → Bool
  | .int n, .int m => n == m
  | .int n, .bool b => n == (if b then (1 : Int) else 0)
  | .bool b, .int m => (if b then (1 : Int) else 0) == m
  | .bool a, .bool b => a == b
  | .str a, .str b => a == b
  | .none, .none => true
  | .list a, .list b => pyEqList a b
  | .dict a, .dict b => a.length == b.length && pyEqEntries a b
  | _, _ => false
termination_by a _ => sizeOf a

/-- Elementwise Python equality of lists. -/
def pyEqList : List Attr → List Attr → Bool
  | [], [] => true
  | x :: xs, y :: ys => pyEq x y && pyEqList xs ys
  | _, _ => false
termination_by a _ => sizeOf a

/-- Every entry of the first dict is present with an equal value in the
second (dict == is key-set based, not order based). -/
def pyEqEntries : List (String × Attr) → List (String × Attr) → Bool
  | [], _ => true
  | (k, v) :: rest, b =>
      (match b.find? (fun p => p.1 == k) with
       | some p => pyEq v p.2
       | Option.none => false) && pyEqEntries rest b
termination_by a _ => sizeOf a
end

/-- Whitespace stripped by Python int(str). -/
def isPySpace (c : Char) : Bool :=
  c == ' ' || c == '\t' || c == '\n' || c == '\x0d' || c == '\x0b' || c == '\x0c'

/-- Parse the digit part of a Python int literal: digits with single
underscores allowed strictly between digits. -/
def pyParseDigits : List Char → Option Nat
  | [] => Option.none
  | c :: rest =>
      if c.isDigit then go (c.toNat - '0'.toNat) rest else Option.none
where
  go (acc : Nat) : List Char → Option Nat
    | [] => some acc
    | '_' :: d :: rest =>
        if d.isDigit then go (acc * 10 + (d.toNat - '0'.toNat)) rest else Option.none
    | d :: rest =>
        if d.isDigit then go (acc * 10 + (d.toNat - '0'.toNat)) rest else Option.none

/-- Python int(s) on a string: strip whitespace, optional sign, digits
(with underscores); returns none where CPython raises ValueError. -/
def pyIntOfString (s : String) : Option Int :=
  let t := ((s.toList.dropWhile isPySpace).reverse.dropWhile isPySpace).reverse
  match t with
  | [] => Option.none
  | '+' :: rest => (pyParseDigits rest).map (fun n => (n : Int))
  | '-' :: rest => (pyParseDigits rest).map (fun n => -(n : Int))
  | rest => (pyParseDigits rest).map (fun n => (n : Int))

/-- The try int(x) / except pass coercion used by _format_port_label:
ints stay, bools become 0/1, numeric strings parse, everything else is
kept unchanged (the exception is swallowed). -/
def pyIntCoerce (a : Attr) : Attr :=
  match a with
  | .int n => .int n
  | .bool b => .int (if b then 1 else 0)
  | .str s =>
      match pyIntOfString s with
      | some n => .int n
      | Option.none => .str s
  | other => other

/-- ASCII upper-casing (str.upper on the ASCII strings handled here). -/
def pyUpper (s : String) : String := String.mk (s.toList.map Char.toUpper)

/-- ASCII lower-casing (str.lower). -/
def pyLower (s : String) : String := String.mk (s.toList.map Char.toLower)

/-- Escapes applied by Python repr to one character of a string literal
quoted with the given quote character. -/
def pyReprEscChar (quote : Char) (c : Char) : List Char :=
  if c == '\\' then ['\\', '\\']
  else if c == quote then ['\\', quote]
  else if c == '\n' then ['\\', 'n']
  else if c == '\x0d' then ['\\', 'r']
  else if c == '\t' then ['\\', 't']
  else if c.toNat < 32 || c.toNat == 127 then
    '\\' :: 'x' :: (Nat.toDigits 16 c.toNat).map Char.toLower
  else [c]

/-- Python repr of a string: single-quoted, switching to double quotes
when the string contains a single quote but no double quote. -/
def pyReprString (s : String) : String :=
  let q : Char :=
    if s.toList.contains '\x27' && !s.toList.contains '"' then '"' else '\x27'
  String.mk (q :: s.toList.flatMap (pyReprEscChar q) ++ [q])

mutual
/-- Python repr of an attribute value (used when values are nested inside
stringified containers). -/
def pyRepr : Attr → String
  | .str s => pyReprString s
  | .int n => toString n
  | .bool b => if b then "True" else "False"
  | .none => "None"
  | .list l => "[" ++ String.intercalate ", " (pyReprList l) ++ "]"
  | .dict d => "\x7b" ++ String.intercalate ", " (pyReprEntries d) ++ "\x7d"
termination_by a => sizeOf a

/-- repr of each element of a list. -/
def pyReprList : List Attr → List String
  | [] => []
  | x :: xs => pyRepr x :: pyReprList xs
termination_by a => sizeOf a

/-- repr of each key/value entry of a dict. -/
def pyReprEntries : List (String × Attr) → List String
  | [] => []
  | (k, v) :: rest => (pyReprString k ++ ": " ++ pyRepr v) :: pyReprEntries rest
termination_by a => sizeOf a
end

/-- Python str(x): a top-level string prints without quotes, every other
value prints as its repr. -/
def pyStrTop : Attr → String
  | .str s => s
  | a => pyRepr a

/-- Python str.title(): a letter starts upper-case after any non-letter
and continues lower-case after a letter. -/
def titleCase (s : String) : String :=
  String.mk (go false s.toList)
where
  go (prevAlpha : Bool) : List Char → List Char
    | [] => []
    | c :: rest =>
        if c.isAlpha then
          (if prevAlpha then c.toLower else c.toUpper) :: go true rest
        else
          c :: go false rest

/-- Does the list start with the given pattern of characters? -/
def startsWithL (l pat : List Char) : Bool :=
  match pat, l with
  | [], _ => true
  | _ :: _, [] => false
  | p :: ps, c :: cs => c == p && startsWithL cs ps

/-- Python substring containment (pat in s). -/
def containsL (l pat : List Char) : Bool :=
  if startsWithL l pat then true
  else
    match l with
    | [] => false
    | _ :: cs => containsL cs pat

/-- Python substring containment on strings. -/
def strContains (s pat : String) : Bool := containsL s.toList pat.toList

/-- Python str.startswith on strings. -/
def strStartsWith (s pat : String) : Bool := startsWithL s.toList pat.toList

/-- Python s[n:] for a non-negative n. -/
def strDrop (s : String) (n : Nat) : String := String.mk (s.toList.drop n)

/-- One pass of Python str.replace: replace every non-overlapping
occurrence of the (non-empty) pattern left to right; the step counter is
one unit per character position and is never exhausted early. -/
def replaceGo (pat rep : List Char) : Nat → List Char → List Char
  | 0, l => l
  | fuel + 1, l =>
      if startsWithL l pat then
        rep ++ replaceGo pat rep fuel (l.drop pat.length)
      else
        match l with
        | [] => []
        | c :: cs => c :: replaceGo pat rep fuel cs

/-- Python str.replace (with a non-empty pattern, as used here). -/
def strReplace (s pat rep : String) : String :=
  String.mk (replaceGo pat.toList rep.toList (s.length + 1) s.toList)

/-- Python str.split(sep) for a single-character separator, keeping
empty parts. -/
def splitOnCharGo (sep : Char) : List Char → List Char → List (List Char)
  | acc, [] => [acc.reverse]
  | acc, c :: cs =>
      if c == sep then acc.reverse :: splitOnCharGo sep [] cs
      else splitOnCharGo sep (c :: acc) cs

/-- Python str.split(".") and friends. -/
def strSplitOnChar (sep : Char) (s : String) : List String :=
  (splitOnCharGo sep [] s.toList).map String.mk

/-- Stable insertion into an ascending (by le) list: an element goes in
front of every element it is le-below-or-tied-with that came later. -/
def insertSorted (le : α → α → Bool) (x : α) : List α → List α
  | [] => [x]
  | y :: ys => if le x y then x :: y :: ys else y :: insertSorted le x ys

/-- Python sorted(.., key=..): a stable ascending sort.  For a total
preorder le (all the comparisons used here are key-based), a stable sort
is unique, so this insertion sort computes exactly what CPython's stable
sort computes. -/
def pySorted (le : α → α → Bool) : List α → List α
  | [] => []
  | x :: xs => insertSorted le x (pySorted le xs)

/-- Python list slicing s[:stop] with possibly negative stop. -/
def pySliceTo (s : String) (stop : Int) : String :=
  if stop ≥ 0 then String.mk (s.toList.take stop.toNat)
  else String.mk (s.toList.take ((s.length : Int) + stop).toNat)

/-- Python dict assignment d[k] = v: update the existing key in place,
else append the new binding. -/
def dictInsert (d : List (String × Attr)) (k : String) (v : Attr) :
    List (String × Attr) :=
  if d.any (fun p => p.1 == k) then
    d.map (fun p => if p.1 == k then (k, v) else p)
  else d ++ [(k, v)]

/-- Python dict lookup d.get(k) (None both for a missing key and for an
explicitly stored None). -/
def attrGet (attrs : List (String × Attr)) (k : String) : Option Attr :=
  (attrs.find? (fun p => p.1 == k)).map (fun p => p.2)

/-- Python dict lookup with a default, d.get(k, dflt): the default is
used only when the key is missing. -/
def attrGetD (attrs : List (String × Attr)) (k : String) (dflt : Attr) : Attr :=
  (attrGet attrs k).getD dflt

/-- d.get(k) collapsing a missing key to None exactly as Python does. -/
def attrGetPy (attrs : List (String × Attr)) (k : String) : Attr :=
  (attrGet attrs k).getD Attr.none

/-! ## Resource model (parser.py dataclasses) -/

/-- A parsed Terraform resource (parser.py TerraformResource). -/
structure TerraformResource where
  resource_type : String
  resource_name : String
  module_path : String := ""
  attributes : List (String × Attr) := []
  source_file : String := ""
  count : Option Int := Option.none
  for_each : Bool := false

/-- full_id property: [module_path.]type.name. -/
def TerraformResource.full_id (r : TerraformResource) : String :=
  if r.module_path.isEmpty then r.resource_type ++ "." ++ r.resource_name
  else r.module_path ++ "." ++ r.resource_type ++ "." ++ r.resource_name

/-- A directed relationship between resources (parser.py
ResourceRelationship). -/
structure ResourceRelationship where
  source_id : String
  target_id : String
  relationship_type : String
  label : Option String := Option.none

/-- Result of parsing (parser.py ParseResult); module calls are not
needed by the claims under verification. -/
structure ParseResult where
  resources : List TerraformResource := []
  relationships : List ResourceRelationship := []

/-! ## parser.py: regex reference scanning

The source scans stringified attribute values with re.finditer for
patterns of the shape {type}\.(\w+)\. (and aws_subnet\.(\w+),
module\.(\w+)\.(\w+)).  Since \w+ is a maximal run of word characters
and a following literal dot can never be satisfied by backtracking into
the run, each pattern is equivalent to: literal prefix, then the maximal
non-empty word run, then (optionally) a required dot.  finditer yields
non-overlapping matches left to right, resuming after each match; the
scanners below implement exactly that, with a step counter bounding the
recursion (one unit per character position, never exhausted early). -/

/-- Word characters of the regex class \w for the ASCII strings here. -/
def isWordChar (c : Char) : Bool := c.isAlphanum || c == '_'

/-- Try to match prefix ++ \w+ (and a trailing dot when required) at the
head of l; return the captured word run and the rest after the match. -/
def tryMatchRef (pat : List Char) (needDot : Bool) (l : List Char) :
    Option (String × List Char) :=
  if startsWithL l pat then
    let after := l.drop pat.length
    let run := after.takeWhile isWordChar
    if run.isEmpty then Option.none
    else
      let rest := after.drop run.length
      if needDot then
        match rest with
        | '.' :: rest2 => some (String.mk run, rest2)
        | _ => Option.none
      else some (String.mk run, rest)
  else Option.none

/-- One finditer loop: at each position try the pattern, emit the capture
and resume after the match, else advance one character. -/
def scanRefsGo (pat : List Char) (needDot : Bool) :
    Nat → List Char → List String
  | 0, _ => []
  | _ + 1, [] => []
  | fuel + 1, l =>
      match tryMatchRef pat needDot l with
      | some (name, rest) => name :: scanRefsGo pat needDot fuel rest
      | Option.none =>
          match l with
          | [] => []
          | _ :: cs => scanRefsGo pat needDot fuel cs

/-- All captures of {pre}(\w+) (with a required trailing dot when
needDot) in the string, in finditer order. -/
def scanRefs (pre : String) (needDot : Bool) (s : String) : List String :=
  scanRefsGo (pre.toList) needDot (s.length + 1) s.toList

/-- Try to match module\.(\w+)\.(\w+) at the head of l; returns the first
capture and the rest after the full match. -/
def tryMatchModule (l : List Char) : Option (String × List Char) :=
  if startsWithL l ("module.".toList) then
    let after := l.drop 7
    let run1 := after.takeWhile isWordChar
    if run1.isEmpty then Option.none
    else
      match after.drop run1.length with
      | '.' :: rest =>
          let run2 := rest.takeWhile isWordChar
          if run2.isEmpty then Option.none
          else some (String.mk run1, rest.drop run2.length)
      | _ => Option.none
  else Option.none

/-- finditer loop for the module pattern. -/
def scanModulesGo : Nat → List Char → List String
  | 0, _ => []
  | _ + 1, [] => []
  | fuel + 1, l =>
      match tryMatchModule l with
      | some (name, rest) => name :: scanModulesGo fuel rest
      | Option.none =>
          match l with
          | [] => []
          | _ :: cs => scanModulesGo fuel cs

/-- All first captures of module\.(\w+)\.(\w+) in the string. -/
def scanModuleRefs (s : String) : List String :=
  scanModulesGo (s.length + 1) s.toList

/-! ## parser.py: relationship extraction from attribute references -/

/-- type_index.get(t, []): resources of the type in input order. -/
def typeIndexGet (resources : List TerraformResource) (t : String) :
    List TerraformResource :=
  resources.filter (fun r => r.resource_type == t)

/-- TerraformParser._find_referenced_resources: stringify the value, scan
for {target_type}\.(\w+)\. and resolve each captured name to the first
resource of the target type with that name (skipping silently when none
exists), then likewise for module\.(\w+)\.(\w+) captures resolved by
module path. -/
def find_referenced_resources (value : Attr) (target_type : String)
    (resources : List TerraformResource) : List TerraformResource :=
  let value_str := pyStrTop value
  let direct := (scanRefs (target_type ++ ".") true value_str).filterMap
    (fun n => (typeIndexGet resources target_type).find?
      (fun r => r.resource_name == n))
  let viaModule := (scanModuleRefs value_str).filterMap
    (fun m => (typeIndexGet resources target_type).find?
      (fun r => r.module_path == m))
  direct ++ viaModule

/-- TerraformParser.RELATIONSHIP_EXTRACTORS: attribute name →
(relationship kind, target resource type). -/
def RELATIONSHIP_EXTRACTORS : List (String × String × String) :=
  [("vpc_id", "belongs_to_vpc", "aws_vpc"),
   ("subnet_id", "deployed_in_subnet", "aws_subnet"),
   ("subnet_ids", "deployed_in_subnets", "aws_subnet"),
   ("security_group_ids", "uses_security_group", "aws_security_group"),
   ("vpc_security_group_ids", "uses_security_group", "aws_security_group"),
   ("security_groups", "uses_security_group", "aws_security_group"),
   ("kms_master_key_id", "encrypted_by", "aws_kms_key"),
   ("kms_key_id", "encrypted_by", "aws_kms_key"),
   ("target_group_arn", "routes_to", "aws_lb_target_group"),
   ("load_balancer_arn", "attached_to", "aws_lb"),
   ("web_acl_arn", "protected_by", "aws_wafv2_web_acl"),
   ("waf_acl_arn", "protected_by", "aws_wafv2_web_acl"),
   ("certificate_arn", "uses_certificate", "aws_acm_certificate"),
   ("role_arn", "assumes_role", "aws_iam_role"),
   ("queue_arn", "sends_to_queue", "aws_sqs_queue"),
   ("topic_arn", "publishes_to", "aws_sns_topic"),
   ("alarm_topic_arn", "alerts_to", "aws_sns_topic")]

/-- The standard attribute-reference pass of _extract_relationships for
one resource: for each configured attribute that is present and truthy,
emit one relationship per referenced resource found. -/
def standardRefRelationships (resource : TerraformResource)
    (resources : List TerraformResource) : List ResourceRelationship :=
  RELATIONSHIP_EXTRACTORS.flatMap (fun e =>
    let value := attrGetPy resource.attributes e.1
    if value.truthy then
      (find_referenced_resources value e.2.2 resources).map
        (fun t =>
          { source_id := resource.full_id, target_id := t.full_id,
            relationship_type := e.2.1 })
    else [])

/-! ## variable_resolver.py: truncate_name -/

/-- VariableResolver.truncate_name: return the name unchanged when it
fits, else Python-slice to max_length - 3 characters and append "...". -/
def truncate_name (name : String) (max_length : Int := 25) : String :=
  if (name.length : Int) ≤ max_length then name
  else pySliceTo name (max_length - 3) ++ "..."

/-! ## parser.py: _format_port_label -/

/-- TerraformParser._format_port_label: port/protocol label for a
security-group rule attribute map. -/
def format_port_label (attrs : List (String × Attr)) : String :=
  let from_port := attrGetPy attrs "from_port"
  let to_port := attrGetPy attrs "to_port"
  let protocol := attrGetD attrs "protocol" (.str "tcp")
  if from_port.isNone then ""
  else
    let fp := pyIntCoerce from_port
    let tp := pyIntCoerce to_port
    -- isinstance(protocol, str): upper-case it and test for "-1"
    match protocol with
    | .str p =>
        let pu := pyUpper p
        if pu == "-1" then "All Traffic" else portBranches (.str pu) fp tp
    | other => portBranches other fp tp
where
  /-- The remaining branches shared by string and non-string protocols. -/
  portBranches (protocol fp tp : Attr) : String :=
    if pyEq fp tp || tp.isNone then
      pyStrTop protocol ++ "/" ++ pyStrTop fp
    else if pyEq fp (.int 0) && pyEq tp (.int 65535) then
      pyStrTop protocol ++ "/All"
    else
      pyStrTop protocol ++ "/" ++ pyStrTop fp ++ "-" ++ pyStrTop tp

/-! ## aggregator.py: data model -/

/-- A subnet within a VPC (aggregator.py Subnet).  The name is kept as an
attribute value: the source stores whatever the name attribute held
(resolved when it is a string). -/
structure Subnet where
  resource_id : String
  name : Attr
  subnet_type : String
  availability_zone : String
  cidr_block : Option Attr := Option.none
  aws_id : Option Attr := Option.none

/-- An availability zone containing subnets (aggregator.py). -/
structure AvailabilityZone where
  name : String
  short_name : String
  subnets : List Subnet := []

/-- A VPC endpoint (aggregator.py VPCEndpoint). -/
structure VPCEndpoint where
  resource_id : String
  name : Attr
  endpoint_type : String
  service : String

/-- The complete VPC structure (aggregator.py VPCStructure). -/
structure VPCStructure where
  vpc_id : String
  name : Attr
  availability_zones : List AvailabilityZone := []
  endpoints : List VPCEndpoint := []

/-- A high-level logical service (aggregator.py LogicalService). -/
structure LogicalService where
  service_type : String
  name : String
  icon_resource_type : String
  resources : List TerraformResource := []
  count : Int := 1
  is_vpc_resource : Bool := false
  subnet_ids : List String := []
  resource_id : Option String := Option.none

/-- id property: resource_id when set (truthy), else
"{service_type}.{name}". -/
def LogicalService.id (s : LogicalService) : String :=
  match s.resource_id with
  | some rid => if rid.isEmpty then s.service_type ++ "." ++ s.name else rid
  | Option.none => s.service_type ++ "." ++ s.name

/-- A connection between logical services (aggregator.py
LogicalConnection). -/
structure LogicalConnection where
  source_id : String
  target_id : String
  label : String := ""
  connection_type : String := "default"

/-- Result of aggregation (aggregator.py AggregatedResult). -/
structure AggregatedResult where
  services : List LogicalService := []
  connections : List LogicalConnection := []
  vpc_services : List LogicalService := []
  global_services : List LogicalService := []
  vpc_structure : Option VPCStructure := Option.none

/-- An aggregation rule in the internal format built by
_build_aggregation_rules (the field aggregate holds the secondary
types). -/
structure AggRule where
  name : String
  primary : List String
  aggregate : List String
  icon : String
  display_name : String
  is_vpc : Bool
deriving DecidableEq

/-- The flat YAML rule format consumed by _build_aggregation_rules. -/
structure FlatRule where
  primary : List String := []
  secondary : List String := []
  in_vpc : Bool := false

/-- ResourceAggregator._build_aggregation_rules: map the YAML format to
the internal rule format. -/
def build_aggregation_rules (flat : List (String × FlatRule)) : List AggRule :=
  flat.map (fun p =>
    { name := p.1
      primary := p.2.primary
      aggregate := p.2.secondary
      icon := (p.2.primary.headD "")
      display_name := titleCase (strReplace p.1 "_" " ")
      is_vpc := p.2.in_vpc })

/-- A logical-connection rule from configuration (dict with source,
target, label, type; the get defaults of the source are folded into the
fields). -/
structure ConnRule where
  source : String := ""
  target : String := ""
  label : String := ""
  ctype : String := "default"

/-- The live-state index as built from TerraformStateResult: resource id
(already mapped from the state address by map_state_to_resource_id) to
the flat values map.  Every claim verified here runs with no live state,
so the index is threaded but always absent. -/
def StateIndex := List (String × List (String × Attr))

/-- The resolve capability of variable_resolver.VariableResolver
(string to string; its construction reads the filesystem and is
abstracted). -/
def Resolver := String → String

/-! ## aggregator.py: subnet id extraction -/

/-- Add to an insertion-ordered model of a Python set. -/
def addIfAbsent (l : List String) (x : String) : List String :=
  if l.contains x then l else l ++ [x]

/-- ResourceAggregator._extract_subnet_refs_from_attrs: recursively scan
nested dicts/lists/strings for aws_subnet.name references, preferring
the four well-known keys, with a depth cap (fuel = 6 - depth: the source
stops once depth exceeds 5). -/
def extractSubnetRefs : Nat → Attr → List String → List String
  | 0, _, acc => acc
  | fuel + 1, a, acc =>
      match a with
      | .dict entries =>
          let acc1 :=
            ["subnet_id", "subnet_ids", "subnets", "network_configuration"].foldl
              (fun ac key =>
                match attrGet entries key with
                | some v => extractSubnetRefs fuel v ac
                | Option.none => ac) acc
          entries.foldl
            (fun ac p =>
              match p.2 with
              | .dict d => extractSubnetRefs fuel (.dict d) ac
              | .list l => extractSubnetRefs fuel (.list l) ac
              | _ => ac) acc1
      | .list items =>
          items.foldl (fun ac item => extractSubnetRefs fuel item ac) acc
      | .str s =>
          (scanRefs "aws_subnet." false s).foldl
            (fun ac n => addIfAbsent ac ("aws_subnet." ++ n)) acc
      | _ => acc

/-- ResourceAggregator._extract_subnet_ids: state-provided subnet ids
(with the _state_subnet: prefix) plus HCL aws_subnet references, as a
set in insertion order. -/
def extract_subnet_ids (resources : List TerraformResource)
    (state : Option StateIndex) : List String :=
  resources.foldl
    (fun acc r =>
      let acc :=
        match state with
        | some idx =>
            match idx.find? (fun p => p.1 == r.full_id) with
            | some entry =>
                let values := entry.2
                let acc :=
                  match attrGet values "subnet_id" with
                  | some (.str s) =>
                      if !s.isEmpty then addIfAbsent acc ("_state_subnet:" ++ s)
                      else acc
                  | _ => acc
                let acc :=
                  match attrGet values "subnet_ids" with
                  | some (.list items) =>
                      if !items.isEmpty then
                        items.foldl
                          (fun ac it =>
                            match it with
                            | .str s => addIfAbsent ac ("_state_subnet:" ++ s)
                            | _ => ac) acc
                      else acc
                  | _ => acc
                match attrGet values "subnets" with
                | some (.list items) =>
                    if !items.isEmpty then
                      items.foldl
                        (fun ac it =>
                          match it with
                          | .str s => addIfAbsent ac ("_state_subnet:" ++ s)
                          | _ => ac) acc
                    else acc
                | _ => acc
            | Option.none => acc
        | Option.none => acc
      extractSubnetRefs 6 (.dict r.attributes) acc)
    []

/-! ## aggregator.py: display names -/

/-- ResourceAggregator._get_resource_display_name for a single resource:
prefer a resolvable name attribute without unresolved interpolation
markers, fall back to the declared resource name, title-case and
truncate to 17 + "..." beyond 20 characters. -/
def get_resource_display_name (resource : TerraformResource)
    (resolver : Option Resolver) : String :=
  let attr_name := attrGetD resource.attributes "name" (.str "")
  let fallback_name := resource.resource_name
  let display0 :=
    match attr_name with
    | .str s =>
        if !s.isEmpty then
          match resolver with
          | some res =>
              let resolved := res s
              if strContains resolved "$\x7b" then fallback_name else resolved
          | Option.none =>
              if strContains s "$\x7b" then fallback_name else s
        else fallback_name
    | _ => fallback_name
  let d := titleCase (strReplace display0 "_" " ")
  if d.length > 20 then String.mk (d.toList.take 17) ++ "..." else d

/-- The inline display-name logic of the non-VPC branch of aggregate
(same fallback chain, starting from the rule display name, which is
always overwritten when a primary resource exists). -/
def groupedDisplayName (rule_display : String)
    (primary : List TerraformResource) (resolver : Option Resolver) : String :=
  match primary with
  | [] => rule_display
  | first :: _ =>
      let attr_name := attrGetD first.attributes "name" (.str "")
      let fallback_name := first.resource_name
      let display0 :=
        match attr_name with
        | .str s =>
            if !s.isEmpty then
              match resolver with
              | some res =>
                  let resolved := res s
                  if strContains resolved "$\x7b" then fallback_name
                  else resolved
              | Option.none =>
                  if strContains s "$\x7b" then fallback_name else s
            else fallback_name
        | _ => fallback_name
      let d := titleCase (strReplace display0 "_" " ")
      if d.length > 20 then String.mk (d.toList.take 17) ++ "..." else d

/-! ## aggregator.py: VPCStructureBuilder -/

/-- The az letter table "abcdef". -/
def azLetters : List Char := ['a', 'b', 'c', 'd', 'e', 'f']

/-- Separator characters of the character class [-_]. -/
def isSepChar (c : Char) : Bool := c == '-' || c == '_'

/-- The character class [a-f]. -/
def isAtoF (c : Char) : Bool := 97 ≤ c.toNat && c.toNat ≤ 102

/-- The character class [a-z]. -/
def isLowerAZ (c : Char) : Bool := 97 ≤ c.toNat && c.toNat ≤ 122

/-- resolver.resolve applied when the value is a string (the source only
resolves instances of str). -/
def resolveAttr (resolver : Option Resolver) (a : Attr) : Attr :=
  match resolver, a with
  | some f, .str s => .str (f s)
  | _, _ => a

/-- re.search of [-_]([a-f])$ on the reversed character list. -/
def azPatLetter (rev : List Char) : Option String :=
  match rev with
  | c :: sep :: _ =>
      if isAtoF c && isSepChar sep then some (String.mk [c]) else Option.none
  | _ => Option.none

/-- re.search of [-_](\d[a-f])$ on the reversed character list. -/
def azPatDigitLetter (rev : List Char) : Option String :=
  match rev with
  | c :: d :: sep :: _ =>
      if isAtoF c && d.isDigit && isSepChar sep then some (String.mk [d, c])
      else Option.none
  | _ => Option.none

/-- re.search of [-_]az(\d)$ on the reversed character list. -/
def azPatAzDigit (rev : List Char) : Option String :=
  match rev with
  | d :: z :: a :: sep :: _ =>
      if d.isDigit && z == 'z' && a == 'a' && isSepChar sep then
        some (String.mk [d])
      else Option.none
  | _ => Option.none

/-- re.search of [-_]([a-f])[-_]: the leftmost mid-name letter between
separators. -/
def azPatMidLetter : List Char → Option String
  | a :: b :: c :: rest =>
      if isSepChar a && isAtoF b && isSepChar c then some (String.mk [b])
      else azPatMidLetter (b :: c :: rest)
  | _ => Option.none

/-- VPCStructureBuilder._detect_availability_zone: an explicit
non-interpolated availability_zone attribute wins; else the AZ_PATTERNS
are tried in order on the lower-cased name; else a sequential index. -/
def detect_availability_zone (r : TerraformResource)
    (sequential_index : Option Nat) : Option String :=
  let fromPatterns :=
    let name :=
      match attrGetD r.attributes "name" (.str r.resource_name) with
      | .str s => s
      | _ => r.resource_name
    let nl := (pyLower name).toList
    let rev := nl.reverse
    match azPatLetter rev with
    | some s => some ("detected-" ++ s)
    | Option.none =>
        match azPatDigitLetter rev with
        | some s => some ("detected-" ++ s)
        | Option.none =>
            match azPatAzDigit rev with
            | some s => some ("detected-" ++ s)
            | Option.none =>
                match azPatMidLetter nl with
                | some s => some ("detected-" ++ s)
                | Option.none =>
                    match sequential_index with
                    | some i =>
                        if i < azLetters.length then
                          some ("detected-" ++ String.mk [azLetters.getD i 'a'])
                        else Option.none
                    | Option.none => Option.none
  match attrGet r.attributes "availability_zone" with
  | some (.str s) =>
      if !s.isEmpty then
        if !strContains s "$\x7b" then some s else fromPatterns
      else fromPatterns
  | _ => fromPatterns

/-- VPCStructureBuilder._extract_az_suffix: suffix patterns in priority
order -1a / -1 / -a on the lower-cased resource name. -/
def extract_az_suffix (resource_name : String) : Option String :=
  let rev := (pyLower resource_name).toList.reverse
  match azPatDigitLetter rev with
  | some s => some s
  | Option.none =>
      -- [-_](\d+)$: the maximal digit suffix, preceded by a separator
      let ds := rev.takeWhile Char.isDigit
      if !ds.isEmpty &&
          (match rev.drop ds.length with
           | sep :: _ => isSepChar sep
           | [] => false) then
        some (String.mk ds.reverse)
      else azPatLetter rev

/-- VPCStructureBuilder.SUBNET_TYPE_PATTERNS in source order. -/
def SUBNET_TYPE_PATTERNS : List (String × List String) :=
  [("public", ["public", "pub", "external", "ext", "dmz", "bastion"]),
   ("private", ["private", "priv", "internal", "int", "app", "compute",
                "worker", "backend", "application"]),
   ("database", ["database", "db", "rds", "data", "storage", "persistence"])]

/-- VPCStructureBuilder._detect_subnet_type: exact tag match first, then
substring match on the resource name and the name attribute. -/
def detect_subnet_type (r : TerraformResource) : String :=
  let tagResult : Option String :=
    match attrGetD r.attributes "tags" (.dict []) with
    | .dict tags =>
        let type_tag := attrGetD tags "Type" (attrGetD tags "type" (.str ""))
        if type_tag.truthy then
          match type_tag with
          | .str s =>
              let sl := pyLower s
              (SUBNET_TYPE_PATTERNS.find? (fun p => p.2.contains sl)).map
                (fun p => p.1)
          -- a truthy non-string tag raises in the source (str.lower on a
          -- non-string); not reachable in the verified claims
          | _ => Option.none
        else Option.none
    | _ => Option.none
  match tagResult with
  | some t => t
  | Option.none =>
      let names : List Attr :=
        [.str r.resource_name, attrGetD r.attributes "name" (.str "")]
      (names.findSome? (fun n =>
        match n with
        | .str s =>
            let sl := pyLower s
            (SUBNET_TYPE_PATTERNS.find?
              (fun p => p.2.any (fun pat => strContains sl pat))).map
              (fun p => p.1)
        | _ => Option.none)).getD "unknown"

/-- VPCStructureBuilder._detect_endpoint_type. -/
def detect_endpoint_type (r : TerraformResource) : String :=
  match attrGetD r.attributes "vpc_endpoint_type" (.str "") with
  | .str s => if pyLower s == "gateway" then "gateway" else "interface"
  | _ => "interface"

/-- Standard com.amazonaws.region.service parsing: everything after the
third dot-separated segment. -/
def endpointServiceStd (service_name : String) : String :=
  let parts := strSplitOnChar '.' service_name
  if parts.length ≥ 4 then String.intercalate "." (parts.drop 3)
  else "unknown"

/-- VPCStructureBuilder._detect_endpoint_service. -/
def detect_endpoint_service (r : TerraformResource) : String :=
  match attrGetD r.attributes "service_name" (.str "") with
  | .str service_name =>
      if strContains service_name "$\x7b" then
        let parts := strSplitOnChar '.' service_name
        let acc := parts.foldl
          (fun (st : Bool × List String) part =>
            if strContains part "$\x7b" || strContains part "\x7d" then
              (true, [])
            else if st.1 then (true, st.2 ++ [part])
            else st)
          (false, [])
        if !acc.2.isEmpty then String.intercalate "." acc.2
        else endpointServiceStd service_name
      else endpointServiceStd service_name
  | _ => "unknown"

/-- VPCStructureBuilder._get_az_short_name. -/
def get_az_short_name (az_name : String) : String :=
  if strStartsWith az_name "detected-" then strReplace az_name "detected-" ""
  else
    match az_name.toList.reverse with
    | c :: d :: _ =>
        if isLowerAZ c && d.isDigit then String.mk [d, c]
        else if c.isAlpha then String.mk [c] else az_name
    | [c] => if c.isAlpha then String.mk [c] else az_name
    | [] => az_name

/-- Lexicographic comparison of character lists by code point (Python
string <=). -/
def charListLe : List Char → List Char → Bool
  | [], _ => true
  | _ :: _, [] => false
  | a :: as, b :: bs =>
      if a.toNat < b.toNat then true
      else if b.toNat < a.toNat then false
      else charListLe as bs

/-- Python string <=. -/
def strLe (a b : String) : Bool := charListLe a.toList b.toList

/-- Comparison of subnet display names used as a sort key; the source
compares them with Python < (raising for non-strings, which the claims
never exercise). -/
def attrNameLe : Attr → Attr → Bool
  | .str a, .str b => strLe a b
  | _, _ => true

/-- type_order.get(subnet_type, 3). -/
def typeOrderOf (t : String) : Nat :=
  if t == "public" then 0
  else if t == "private" then 1
  else if t == "database" then 2
  else 3

/-- Sort key ordering of build: (type_order, subnet name), stable. -/
def subnetKeyLe (x y : TerraformResource × Subnet × Option String) : Bool :=
  let kx := typeOrderOf x.2.1.subnet_type
  let ky := typeOrderOf y.2.1.subnet_type
  if kx < ky then true
  else if ky < kx then false
  else attrNameLe x.2.1.name y.2.1.name

/-- Append a subnet to the first availability zone satisfying the
predicate; also report whether one was found. -/
def appendSubnetToAz (azs : List AvailabilityZone)
    (pred : AvailabilityZone → Bool) (s : Subnet) :
    List AvailabilityZone × Bool :=
  match azs with
  | [] => ([], false)
  | az :: rest =>
      if pred az then ({ az with subnets := az.subnets ++ [s] } :: rest, true)
      else
        let r := appendSubnetToAz rest pred s
        (az :: r.1, r.2)

/-- One step of the subnet distribution loop of build. -/
def distributeStep (st : List AvailabilityZone × List Subnet)
    (t : TerraformResource × Subnet × Option String) :
    List AvailabilityZone × List Subnet :=
  let azs := st.1
  let unassigned := st.2
  let subnet := t.2.1
  match t.2.2 with
  | some k =>
      if azs.any (fun az => az.name == k) then
        ((appendSubnetToAz azs (fun az => az.name == k) subnet).1, unassigned)
      else if strStartsWith k "detected-" then
        let suffix := strReplace k "detected-" ""
        let r := appendSubnetToAz azs
          (fun az => az.short_name == suffix || strContains az.short_name suffix)
          subnet
        if r.2 then (r.1, unassigned) else (azs, unassigned ++ [subnet])
      else (azs, unassigned ++ [subnet])
  | Option.none => (azs, unassigned ++ [subnet])

/-- Group subnets by subnet_type in first-occurrence key order (a Python
dict of lists built with setdefault). -/
def groupByType (subnets : List Subnet) : List (String × List Subnet) :=
  subnets.foldl
    (fun acc s =>
      if acc.any (fun p => p.1 == s.subnet_type) then
        acc.map (fun p =>
          if p.1 == s.subnet_type then (p.1, p.2 ++ [s]) else p)
      else acc ++ [(s.subnet_type, [s])])
    []

/-- Append a subnet to the availability zone at the given index. -/
def appendSubnetAt (azs : List AvailabilityZone) (i : Nat) (s : Subnet) :
    List AvailabilityZone :=
  azs.mapIdx (fun j az =>
    if j == i then { az with subnets := az.subnets ++ [s] } else az)

/-- The round-robin distribution of unassigned subnets by type; when a
type has several members their display names get an az-letter suffix
(an az index beyond the letter table would raise in the source and is
unreachable in the claims). -/
def roundRobin (azs : List AvailabilityZone) (unassigned : List Subnet) :
    List AvailabilityZone :=
  let grouped := groupByType unassigned
  let sortedGroups := pySorted
    (fun (a b : String × List Subnet) => typeOrderOf a.1 ≤ typeOrderOf b.1)
    grouped
  sortedGroups.foldl
    (fun azs g =>
      (g.2.enum).foldl
        (fun azs p =>
          let az_idx := p.1 % azs.length
          let s2 :=
            if g.2.length > 1 then
              { p.2 with
                name := .str (pyStrTop p.2.name ++ " (" ++
                  String.mk [azLetters.getD az_idx 'a'] ++ ")") }
            else p.2
          appendSubnetAt azs az_idx s2)
        azs)
    azs

/-- VPCStructureBuilder.build: locate the VPC, classify subnets, decide
the AZ set, distribute subnets, collect endpoints. -/
def vpc_build (resources : List TerraformResource)
    (resolver : Option Resolver) (state : Option StateIndex) :
    Option VPCStructure :=
  if resources.isEmpty then Option.none
  else
    match resources.find? (fun r => r.resource_type == "aws_vpc") with
    | Option.none => Option.none
    | some vpc_resource =>
        let vpc_name := resolveAttr resolver
          (attrGetD vpc_resource.attributes "name"
            (.str vpc_resource.resource_name))
        let subnet_resources :=
          resources.filter (fun r => r.resource_type == "aws_subnet")
        let all_subnets : List (TerraformResource × Subnet × Option String) :=
          subnet_resources.map (fun r =>
            let subnet_name := resolveAttr resolver
              (attrGetD r.attributes "name" (.str r.resource_name))
            let state_az : Option String :=
              match state with
              | some idx =>
                  match idx.find? (fun p => p.1 == r.full_id) with
                  | some entry =>
                      match attrGet entry.2 "availability_zone" with
                      | some (.str s) => if !s.isEmpty then some s else Option.none
                      | _ => Option.none
                  | Option.none => Option.none
              | Option.none => Option.none
            let explicit_az :=
              match state_az with
              | some s => some s
              | Option.none => detect_availability_zone r Option.none
            let suffix := extract_az_suffix r.resource_name
            let az_key : Option String :=
              match explicit_az with
              | some e =>
                  if !strStartsWith e "detected-" then some e
                  else
                    match suffix with
                    | some s => some ("detected-" ++ s)
                    | Option.none => Option.none
              | Option.none =>
                  match suffix with
                  | some s => some ("detected-" ++ s)
                  | Option.none => Option.none
            let aws_subnet_id :=
              match state with
              | some idx =>
                  (idx.find? (fun p => p.1 == r.full_id)).bind
                    (fun e => attrGet e.2 "id")
              | Option.none => Option.none
            (r,
             { resource_id := r.full_id
               name := subnet_name
               subnet_type := detect_subnet_type r
               availability_zone := az_key.getD "unknown"
               cidr_block := attrGet r.attributes "cidr_block"
               aws_id := aws_subnet_id },
             az_key))
        -- the explicit_azs set holds exactly the non-detected az keys
        let explicitList :=
          (all_subnets.filterMap (fun t => t.2.2)).filter
            (fun k => !strStartsWith k "detected-")
        let az_names : List String :=
          if !explicitList.isEmpty then
            pySorted strLe (explicitList.foldl addIfAbsent [])
          else
            let num1 : Int := all_subnets.foldl
              (fun n t =>
                match t.1.count with
                | some c => if c ≠ 0 && n < c then c else n
                | Option.none => n)
              1
            let num2 : Int :=
              if num1 == 1 then
                let detected :=
                  ((all_subnets.filterMap (fun t => t.2.2)).filter
                    (fun k => strStartsWith k "detected-")).foldl addIfAbsent []
                if !detected.isEmpty then (detected.length : Int)
                else
                  let types := all_subnets.map (fun t => t.2.1.subnet_type)
                  let distinct := types.foldl addIfAbsent []
                  let counts := distinct.map
                    (fun ty => (types.filter (fun x => x == ty)).length)
                  if !counts.isEmpty then (counts.foldl max 0 : Int) else 1
              else num1
            (List.range num2.toNat).map
              (fun i => "detected-" ++ String.mk [azLetters.getD (i % 6) 'a'])
        let azs0 := az_names.map (fun n =>
          { name := n, short_name := get_az_short_name n,
            subnets := [] : AvailabilityZone })
        let sortedTriples := pySorted subnetKeyLe all_subnets
        let dist := sortedTriples.foldl distributeStep (azs0, [])
        let azs2 :=
          if !dist.2.isEmpty && !dist.1.isEmpty then roundRobin dist.1 dist.2
          else dist.1
        let endpoints :=
          (resources.filter (fun r => r.resource_type == "aws_vpc_endpoint")).map
            (fun r =>
              { resource_id := r.full_id
                name := resolveAttr resolver
                  (attrGetD r.attributes "name" (.str r.resource_name))
                endpoint_type := detect_endpoint_type r
                service := detect_endpoint_service r })
        some { vpc_id := vpc_resource.full_id, name := vpc_name,
               availability_zones := azs2, endpoints := endpoints }

/-! ## aggregator.py: ResourceAggregator.aggregate -/

/-- Lookup in a dict built by sequential assignments: the last
assignment for a key wins. -/
def lookupLast (l : List (String × String)) (t : String) : Option String :=
  (l.reverse.find? (fun p => p.1 == t)).map (fun p => p.2)

/-- The assignment sequence of _build_type_to_rule_map: primary then
secondary types of each rule, in rule order. -/
def typeRuleAssignments (rules : List AggRule) : List (String × String) :=
  rules.foldl
    (fun acc r =>
      acc ++ r.primary.map (fun t => (t, r.name)) ++
        r.aggregate.map (fun t => (t, r.name)))
    []

/-- self._type_to_rule.get(resource_type). -/
def type_to_rule (rules : List AggRule) (t : String) : Option String :=
  lookupLast (typeRuleAssignments rules) t

/-- Keys of a dict built with setdefault, in first-occurrence order. -/
def firstOccurrences (l : List String) : List String :=
  l.foldl addIfAbsent []

/-- rule_resources[name]: the resources grouped to the rule, in input
order. -/
def group_for_rule (rules : List AggRule)
    (resources : List TerraformResource) (name : String) :
    List TerraformResource :=
  resources.filter (fun r => type_to_rule rules r.resource_type == some name)

/-- The iteration order of rule_resources.items(): rule names in order
of first matched resource. -/
def rule_order (rules : List AggRule) (resources : List TerraformResource) :
    List String :=
  firstOccurrences
    (resources.filterMap (fun r => type_to_rule rules r.resource_type))

/-- The logical services created for one rule group: de-grouped one per
primary resource for VPC rules, a single grouped service otherwise, and
nothing when no primary resource matched. -/
def services_for_rule (rule : AggRule) (matched : List TerraformResource)
    (resolver : Option Resolver) (state : Option StateIndex) :
    List LogicalService :=
  let primary_resources :=
    matched.filter (fun r => rule.primary.contains r.resource_type)
  if primary_resources.length == 0 then []
  else if rule.is_vpc then
    primary_resources.map (fun resource =>
      { service_type := rule.name
        name := get_resource_display_name resource resolver
        icon_resource_type := rule.icon
        resources := [resource]
        count := 1
        is_vpc_resource := true
        subnet_ids := extract_subnet_ids [resource] state
        resource_id := some resource.full_id })
  else
    [{ service_type := rule.name
       name := groupedDisplayName rule.display_name primary_resources resolver
       icon_resource_type := rule.icon
       resources := matched
       count := (primary_resources.length : Int)
       is_vpc_resource := false
       subnet_ids := extract_subnet_ids matched state
       resource_id := Option.none }]

/-- services_by_type[t]: services of the type in creation order. -/
def servicesByType (services : List LogicalService) (t : String) :
    List LogicalService :=
  services.filter (fun s => s.service_type == t)

/-- The connection loop of aggregate: for every configured rule whose
source and target types are both present, one connection per
(source service, target service) pair. -/
def buildConnections (conns : List ConnRule)
    (services : List LogicalService) : List LogicalConnection :=
  conns.flatMap (fun c =>
    let src := servicesByType services c.source
    let tgt := servicesByType services c.target
    if !src.isEmpty && !tgt.isEmpty then
      src.flatMap (fun s =>
        tgt.map (fun t =>
          { source_id := s.id, target_id := t.id, label := c.label,
            connection_type := c.ctype }))
    else [])

/-- One iteration of the service-creation loop: look the rule up by its
name (the dict access of the source, which cannot miss because every
grouped name comes from the rule table) and create its services. -/
def servicesForName (rules : List AggRule)
    (resources : List TerraformResource) (resolver : Option Resolver)
    (state : Option StateIndex) (n : String) : List LogicalService :=
  match rules.find? (fun ru => ru.name == n) with
  | some rule =>
      services_for_rule rule (group_for_rule rules resources n) resolver state
  | Option.none => []

/-- ResourceAggregator.aggregate.  The variable resolver exists exactly
when a terraform_dir is supplied (its filesystem-reading construction is
abstracted by mkResolver); the rule table and connection rules come from
the configuration.  The vpc_services / global_services lists collect the
services appended in the respective branches, which are exactly those
with / without is_vpc_resource. -/
def aggregate (rules : List AggRule) (conns : List ConnRule)
    (parse_result : ParseResult) (terraform_dir : Option String)
    (state : Option StateIndex) (mkResolver : String → Resolver) :
    AggregatedResult :=
  let resolver : Option Resolver := terraform_dir.map mkResolver
  let order := rule_order rules parse_result.resources
  let services := order.flatMap
    (servicesForName rules parse_result.resources resolver state)
  { services := services
    connections := buildConnections conns services
    vpc_services := services.filter (fun s => s.is_vpc_resource)
    global_services := services.filter (fun s => !s.is_vpc_resource)
    vpc_structure :=
      match resolver with
      | some _ => vpc_build parse_result.resources resolver state
      | Option.none => Option.none }

/-! ## layout.py: configuration and position model

Pixel geometry uses rationals in place of Python floats; int() is exact
truncation.  All claim-relevant computations stay within exactly
representable values, so no float-rounding distinction arises. -/

/-- Position and size of an element (layout.py Position). -/
structure Position where
  x : ℚ
  y : ℚ
  width : ℚ
  height : ℚ
deriving DecidableEq

/-- A visual group (layout.py ServiceGroup). -/
structure ServiceGroup where
  group_type : String
  name : String
  services : List LogicalService := []
  position : Option Position := Option.none

/-- Layout configuration with base dimensions (layout.py LayoutConfig). -/
structure LayoutConfig where
  canvas_width : ℚ := 1400
  canvas_height : ℚ := 900
  padding : ℚ := 30
  icon_size : ℚ := 64
  icon_spacing : ℚ := 40
  group_padding : ℚ := 25
  label_height : ℚ := 24
  row_spacing : ℚ := 100
  column_spacing : ℚ := 130
  min_scale : ℚ := 0.6
  max_scale : ℚ := 1.5

/-- Python int(): truncation toward zero. -/
def pyTrunc (q : ℚ) : Int := if 0 ≤ q then q.floor else -((-q).floor)

/-- LayoutConfig.scaled: clamp the scale and apply int-truncated scaling
to every dimension. -/
def LayoutConfig.scaled (c : LayoutConfig) (scale : ℚ) : LayoutConfig :=
  let clamped := max c.min_scale (min c.max_scale scale)
  { canvas_width := (pyTrunc (c.canvas_width * clamped) : ℚ)
    canvas_height := (pyTrunc (c.canvas_height * clamped) : ℚ)
    padding := (pyTrunc (c.padding * clamped) : ℚ)
    icon_size := (pyTrunc (c.icon_size * clamped) : ℚ)
    icon_spacing := (pyTrunc (c.icon_spacing * clamped) : ℚ)
    group_padding := (pyTrunc (c.group_padding * clamped) : ℚ)
    label_height := (pyTrunc (c.label_height * clamped) : ℚ)
    row_spacing := (pyTrunc (c.row_spacing * clamped) : ℚ)
    column_spacing := (pyTrunc (c.column_spacing * clamped) : ℚ)
    min_scale := c.min_scale
    max_scale := c.max_scale }

/-- LayoutEngine._compute_responsive_scale. -/
def compute_responsive_scale (agg : AggregatedResult) : ℚ :=
  let num_services := agg.services.length
  let num_azs :=
    match agg.vpc_structure with
    | some vs => vs.availability_zones.length
    | Option.none => 0
  let max_subnets_per_az : Nat :=
    match agg.vpc_structure with
    | some vs => (vs.availability_zones.map (fun az => az.subnets.length)).foldl
        max 0
    | Option.none => 0
  let num_endpoints :=
    match agg.vpc_structure with
    | some vs => vs.endpoints.length
    | Option.none => 0
  let service_scale : ℚ :=
    if num_services ≤ 4 then 0.8
    else if num_services ≤ 8 then 0.9
    else if num_services ≤ 15 then 1.0
    else if num_services ≤ 25 then 1.2
    else 1.4
  let vpc_scale : ℚ :=
    (if 3 ≤ num_azs then (1.1 : ℚ) else 1) *
    (if 4 ≤ max_subnets_per_az then (1.15 : ℚ) else 1) *
    (if 4 ≤ num_endpoints then (1.05 : ℚ) else 1)
  service_scale * vpc_scale

/-- The id → Position dict of compute_layout. -/
abbrev PosMap := List (String × Position)

/-- positions[k] = v with dict update-or-append semantics. -/
def posInsert (m : PosMap) (k : String) (v : Position) : PosMap :=
  if m.any (fun p => p.1 == k) then
    m.map (fun p => if p.1 == k then (k, v) else p)
  else m ++ [(k, v)]

/-- positions.get(k). -/
def posGet (m : PosMap) (k : String) : Option Position :=
  (m.find? (fun p => p.1 == k)).map (fun p => p.2)

/-- k in positions. -/
def posHas (m : PosMap) (k : String) : Bool :=
  m.any (fun p => p.1 == k)

/-- The fixed service-type buckets of compute_layout. -/
def edgeTypes : List String := ["cloudfront", "waf", "route53", "acm", "cognito"]

/-- VPC-internal bucket. -/
def vpcTypes : List String :=
  ["alb", "ecs", "ec2", "security_groups", "security", "vpc",
   "internet_gateway", "nat_gateway"]

/-- Data bucket. -/
def dataTypes : List String := ["s3", "dynamodb", "mongodb"]

/-- Messaging bucket. -/
def messagingTypes : List String := ["sqs", "sns", "eventbridge"]

/-- Security bucket. -/
def securityTypes : List String := ["kms", "secrets", "secrets_manager", "iam"]

/-- Membership in none of the five named buckets (the else branch). -/
def isOtherType (st : String) : Bool :=
  !(edgeTypes.contains st || vpcTypes.contains st || dataTypes.contains st ||
    messagingTypes.contains st || securityTypes.contains st)

/-- LayoutEngine._center_row_start. -/
def center_row_start (config : LayoutConfig) (num_items : Nat)
    (min_x max_x : Option ℚ) : ℚ :=
  let min_x := min_x.getD config.padding
  let max_x := max_x.getD (config.canvas_width - config.padding)
  let available_width := max_x - min_x
  let total_items_width := (num_items : ℚ) * config.icon_size +
    ((num_items : ℚ) - 1) * config.icon_spacing
  min_x + (available_width - total_items_width) / 2

/-- LayoutEngine._compute_vpc_height. -/
def compute_vpc_height (config : LayoutConfig) (vpc_structure : VPCStructure)
    (has_vpc_services : Bool) (services_with_subnets : List LogicalService) :
    ℚ :=
  if vpc_structure.availability_zones.isEmpty then 180
  else
    let subnet_padding : ℚ := 10
    let az_header_height : ℚ := 30
    let vpc_header_height := config.group_padding + 30
    let base_padding : ℚ := 40
    let services_row_height : ℚ :=
      if has_vpc_services then config.icon_size + 50 else 0
    let empty_subnet_height : ℚ := 60
    let service_subnet_height := config.icon_size + 56
    -- both branches of the source normalization add the id unchanged
    let subnets_with_services : List String :=
      services_with_subnets.foldl
        (fun acc svc => svc.subnet_ids.foldl addIfAbsent acc) []
    let max_az_content_height : ℚ :=
      vpc_structure.availability_zones.foldl
        (fun m az =>
          let az_content_height := az.subnets.foldl
            (fun h subnet =>
              let has_services :=
                subnets_with_services.contains subnet.resource_id ||
                (match subnet.aws_id with
                 | some aid =>
                     aid.truthy &&
                     subnets_with_services.contains
                       ("_state_subnet:" ++ pyStrTop aid)
                 | Option.none => false)
              h + (if has_services then service_subnet_height
                   else empty_subnet_height) + subnet_padding)
            0
          max m az_content_height)
        0
    let height_for_subnets := vpc_header_height + services_row_height +
      az_header_height + max_az_content_height + base_padding
    let num_endpoints := vpc_structure.endpoints.length
    let height_for_endpoints : ℚ :=
      if 0 < num_endpoints then
        vpc_header_height + services_row_height +
          (num_endpoints : ℚ) * 72 + base_padding + 20
      else 0
    max 200 (max height_for_subnets height_for_endpoints)

/-- The aws-subnet-id → resource-id dict of _layout_vpc_structure; keys
are the raw state values. -/
def awsIdMapInsert (m : List (Attr × String)) (k : Attr) (v : String) :
    List (Attr × String) :=
  if m.any (fun p => pyEq p.1 k) then
    m.map (fun p => if pyEq p.1 k then (k, v) else p)
  else m ++ [(k, v)]

/-- setdefault(key, []).append(svc) on the subnet → services dict. -/
def sbsAppend (m : List (String × List LogicalService)) (k : String)
    (svc : LogicalService) : List (String × List LogicalService) :=
  if m.any (fun p => p.1 == k) then
    m.map (fun p => if p.1 == k then (p.1, p.2 ++ [svc]) else p)
  else m ++ [(k, [svc])]

/-- The subnet → services mapping built at the top of _layout_subnets. -/
def servicesBySubnet (services_with_subnets : List LogicalService)
    (aws_map : List (Attr × String)) :
    List (String × List LogicalService) :=
  services_with_subnets.foldl
    (fun m svc =>
      svc.subnet_ids.foldl
        (fun m sid =>
          if strStartsWith sid "_state_subnet:" then
            let aws_id := strDrop sid ("_state_subnet:".length)
            match aws_map.find? (fun p => pyEq p.1 (.str aws_id)) with
            | some p => sbsAppend m p.2 svc
            | Option.none => m
          else sbsAppend m sid svc)
        m)
    []

/-- services_by_subnet.get(resource_id, []): the services assigned to a
subnet by the mapping built in _layout_subnets. -/
def subnetServices (services_by_subnet : List (String × List LogicalService))
    (rid : String) : List LogicalService :=
  ((services_by_subnet.find? (fun p => p.1 == rid)).map (fun p => p.2)).getD []

/-- The placement of one co-located service inside a subnet (the inner
loop body of _layout_subnets): place at the running x unless the id is
already positioned, then advance by icon + box padding + gap. -/
def placeServiceStep (config : LayoutConfig) (service_y : ℚ)
    (q : PosMap × ℚ) (service : LogicalService) : PosMap × ℚ :=
  if !posHas q.1 service.id then
    (posInsert q.1 service.id
      ⟨q.2, service_y, config.icon_size, config.icon_size⟩,
     q.2 + config.icon_size + 26)
  else q

/-- The placement of one subnet and of the services co-located in it
(the body of the subnet loop of _layout_subnets): the subnet box, then
services left to right from a 15px margin, vertically centered. -/
def layoutSubnetStep (config : LayoutConfig) (az_pos : Position)
    (services_by_subnet : List (String × List LogicalService))
    (st : PosMap × ℚ) (subnet : Subnet) : PosMap × ℚ :=
  let subnet_padding : ℚ := 10
  let subnet_height : ℚ := 60
  let subnet_width := az_pos.width - 2 * subnet_padding
  let subnet_y := st.2
  let subnet_services := subnetServices services_by_subnet subnet.resource_id
  let actual_subnet_height :=
    if !subnet_services.isEmpty then
      max subnet_height (config.icon_size + 56)
    else subnet_height
  let positions := posInsert st.1 subnet.resource_id
    ⟨az_pos.x + subnet_padding, subnet_y, subnet_width, actual_subnet_height⟩
  let positions :=
    if !subnet_services.isEmpty then
      let service_y := subnet_y + 8 +
        (actual_subnet_height - (config.icon_size + 44)) / 2
      (subnet_services.foldl (placeServiceStep config service_y)
        (positions, az_pos.x + subnet_padding + 15)).1
    else positions
  (positions, subnet_y + actual_subnet_height + subnet_padding)

/-- LayoutEngine._layout_subnets for one availability zone. -/
def layout_subnets (config : LayoutConfig) (az : AvailabilityZone)
    (az_pos : Position) (services_with_subnets : List LogicalService)
    (aws_map : List (Attr × String)) (positions : PosMap) : PosMap :=
  if az.subnets.isEmpty then positions
  else
    let sbs := servicesBySubnet services_with_subnets aws_map
    (az.subnets.foldl (layoutSubnetStep config az_pos sbs)
      (positions, az_pos.y + 30)).1

/-- LayoutEngine._layout_vpc_structure: AZ boxes left to right with a
fixed gap and a reserved endpoint column on the right. -/
def layout_vpc_structure (config : LayoutConfig)
    (vpc_structure : VPCStructure) (vpc_pos : Position) (positions : PosMap)
    (groups : List ServiceGroup) (az_start_y : ℚ)
    (services_with_subnets : List LogicalService) :
    PosMap × List ServiceGroup :=
  let num_azs := vpc_structure.availability_zones.length
  if num_azs == 0 then (positions, groups)
  else
    let az_padding : ℚ := 15
    let endpoint_width : ℚ := 90
    let available_width := vpc_pos.width - 2 * az_padding - endpoint_width
    let az_width := (available_width - ((num_azs : ℚ) - 1) * az_padding) /
      (num_azs : ℚ)
    let aws_map := vpc_structure.availability_zones.foldl
      (fun m az =>
        az.subnets.foldl
          (fun m subnet =>
            match subnet.aws_id with
            | some aid =>
                if aid.truthy then awsIdMapInsert m aid subnet.resource_id
                else m
            | Option.none => m)
          m)
      []
    let az_y := az_start_y
    let az_height := (vpc_pos.y + vpc_pos.height - 20) - az_y
    let res := vpc_structure.availability_zones.foldl
      (fun (st : PosMap × List ServiceGroup × ℚ) az =>
        let az_pos : Position := ⟨st.2.2, az_y, az_width, az_height⟩
        let groups := st.2.1 ++
          [{ group_type := "az", name := "AZ " ++ az.short_name,
             services := [], position := some az_pos }]
        let positions :=
          layout_subnets config az az_pos services_with_subnets aws_map st.1
        (positions, groups, st.2.2 + az_width + az_padding))
      (positions, groups, vpc_pos.x + az_padding)
    if !vpc_structure.endpoints.isEmpty then
      let endpoint_x := vpc_pos.x + vpc_pos.width - endpoint_width + 3
      let final := vpc_structure.endpoints.foldl
        (fun (q : PosMap × ℚ) ep =>
          (posInsert q.1 ep.resource_id ⟨endpoint_x, q.2, 80, 65⟩, q.2 + 72))
        (res.1, az_y + 5)
      (final.1, res.2.1)
    else (res.1, res.2.1)

/-! ## layout.py: height estimation and organic layout -/

/-- LayoutEngine._estimate_required_height (with the already-scaled
config). -/
def estimate_required_height (config : LayoutConfig)
    (agg : AggregatedResult) : ℚ :=
  let height0 := config.padding + 40
  let edge_services := agg.services.filter
    (fun s => edgeTypes.contains s.service_type)
  let vpc_services := agg.services.filter
    (fun s => vpcTypes.contains s.service_type)
  let data_services := agg.services.filter
    (fun s => dataTypes.contains s.service_type)
  let messaging_services := agg.services.filter
    (fun s => messagingTypes.contains s.service_type)
  let security_services := agg.services.filter
    (fun s => securityTypes.contains s.service_type)
  let other_services := agg.services.filter
    (fun s => isOtherType s.service_type)
  let height1 :=
    if !edge_services.isEmpty then height0 + config.row_spacing + 20
    else height0
  let vpc_internal := vpc_services.filter (fun s => s.service_type != "vpc")
  let has_vpc_content := !vpc_internal.isEmpty || agg.vpc_structure.isSome
  let height2 :=
    if has_vpc_content then
      let services_with_subnets := vpc_internal.filter
        (fun s => !s.subnet_ids.isEmpty)
      let services_without_subnets := vpc_internal.filter
        (fun s => s.subnet_ids.isEmpty)
      let vpc_height :=
        match agg.vpc_structure with
        | some vs =>
            compute_vpc_height config vs (!services_without_subnets.isEmpty)
              services_with_subnets
        | Option.none => 180
      height1 + vpc_height + 40
    else height1
  let non_vpc_services := data_services ++ messaging_services ++
    security_services ++ other_services
  let height3 :=
    if !non_vpc_services.isEmpty then
      let service_width := config.icon_size + 50
      let service_height := config.icon_size + 50
      let available_width := config.canvas_width - 2 * (config.padding + 50)
      let cols : Int := max 1 (pyTrunc (available_width / service_width))
      let rows : Int := ((non_vpc_services.length : Int) + cols - 1) / cols
      height2 + (rows : ℚ) * service_height + 40
    else height2
  ((pyTrunc (height3 + config.padding + 40) : Int) : ℚ)

/-- service_type of a connection endpoint id: the part before the first
dot. -/
def typeOfId (s : String) : String := (strSplitOnChar '.' s).headD s

/-- Add a directed adjacency to the connection graph. -/
def graphAdd (g : List (String × List String)) (a b : String) :
    List (String × List String) :=
  g.map (fun p => if p.1 == a then (p.1, addIfAbsent p.2 b) else p)

/-- LayoutEngine._build_connection_graph: bidirectional adjacency between
service types present, keyed by type (set adjacency modelled as a
deduplicated list; the source only takes membership and length). -/
def build_connection_graph (services : List LogicalService)
    (connections : List LogicalConnection) : List (String × List String) :=
  let present := services.foldl (fun acc s => addIfAbsent acc s.service_type) []
  let graph0 := present.map (fun t => (t, ([] : List String)))
  connections.foldl
    (fun g conn =>
      let src_type := typeOfId conn.source_id
      let tgt_type := typeOfId conn.target_id
      if present.contains src_type && present.contains tgt_type then
        graphAdd (graphAdd g src_type tgt_type) tgt_type src_type
      else g)
    graph0

/-- graph.get(t, set()) as a list. -/
def graphGet (g : List (String × List String)) (t : String) : List String :=
  ((g.find? (fun p => p.1 == t)).map (fun p => p.2)).getD []

/-- Group services by service_type in first-occurrence key order. -/
def servicesGroupedByType (services : List LogicalService) :
    List (String × List LogicalService) :=
  services.foldl
    (fun acc s =>
      if acc.any (fun p => p.1 == s.service_type) then
        acc.map (fun p =>
          if p.1 == s.service_type then (p.1, p.2 ++ [s]) else p)
      else acc ++ [(s.service_type, [s])])
    []

/-- Mutable state of the _layout_by_connections type loop. -/
structure OrganicState where
  positions : PosMap
  placed : List (String × Int × Int)
  grid : List ((Int × Int) × String)
  current_row : Int
  current_col : Int

/-- The body of the per-type loop of _layout_by_connections. -/
def organicStep (config : LayoutConfig)
    (graph : List (String × List String))
    (by_type : List (String × List LogicalService))
    (start_x start_y service_width service_height : ℚ) (cols : Int)
    (st : OrganicState) (service_type : String) : OrganicState :=
  let type_services :=
    ((by_type.find? (fun p => p.1 == service_type)).map (fun p => p.2)).getD []
  let connected_types := graphGet graph service_type
  -- first already-placed connected type, then the first free adjacent cell
  let best : Int × Int :=
    match connected_types.find? (fun ct => st.placed.any (fun p => p.1 == ct)) with
    | some ct =>
        match st.placed.find? (fun p => p.1 == ct) with
        | some p =>
            let ct_row := p.2.1
            let ct_col := p.2.2
            let candidates : List (Int × Int) :=
              [(ct_row, ct_col + 1), (ct_row + 1, ct_col),
               (ct_row, ct_col - 1), (ct_row + 1, ct_col + 1)]
            match candidates.find?
              (fun rc => 0 ≤ rc.2 && rc.2 < cols &&
                !st.grid.any (fun gp => gp.1 == rc)) with
            | some rc => rc
            | Option.none => (st.current_row, st.current_col)
        | Option.none => (st.current_row, st.current_col)
    | Option.none => (st.current_row, st.current_col)
  let best_row := if best.2 ≥ cols then st.current_row + 1 else best.1
  let best_col := if best.2 ≥ cols then 0 else best.2
  let inner := (type_services.enum).foldl
    (fun (q : PosMap × List ((Int × Int) × String) × Int) pr =>
      let i : Int := (pr.1 : Int)
      let col0 := best_col + i
      let col := if col0 ≥ cols then col0 % cols else col0
      let row := if col0 ≥ cols then best_row + (best_col + i) / cols
        else best_row
      let x := start_x + (col : ℚ) * service_width
      let y := start_y + (row : ℚ) * service_height
      let positions := posInsert q.1 pr.2.id
        ⟨x, y, config.icon_size, config.icon_size⟩
      let grid :=
        if q.2.1.any (fun gp => gp.1 == (row, col)) then
          q.2.1.map (fun gp =>
            if gp.1 == (row, col) then (gp.1, service_type) else gp)
        else q.2.1 ++ [((row, col), service_type)]
      (positions, grid, max q.2.2 row))
    (st.positions, st.grid, st.current_row)
  let placed :=
    if st.placed.any (fun p => p.1 == service_type) then
      st.placed.map (fun p =>
        if p.1 == service_type then (p.1, best_row, best_col) else p)
    else st.placed ++ [(service_type, best_row, best_col)]
  if best_col + (type_services.length : Int) ≥ cols then
    { positions := inner.1, placed := placed, grid := inner.2.1,
      current_row := best_row + 1, current_col := 0 }
  else
    { positions := inner.1, placed := placed, grid := inner.2.1,
      current_row := inner.2.2, current_col := best_col + (type_services.length : Int) }

/-- LayoutEngine._layout_by_connections: connection-aware grid placement
of the non-VPC services; returns the updated positions and the row after
the grid. -/
def layout_by_connections (config : LayoutConfig)
    (services : List LogicalService) (connections : List LogicalConnection)
    (start_x start_y available_width : ℚ) (positions : PosMap) :
    PosMap × ℚ :=
  if services.isEmpty then (positions, start_y)
  else
    let graph := build_connection_graph services connections
    let by_type := servicesGroupedByType services
    let sorted_types := pySorted
      (fun a b => (graphGet graph b).length ≤ (graphGet graph a).length)
      (by_type.map (fun p => p.1))
    let service_width := config.icon_size + 50
    let service_height := config.icon_size + 50
    let cols : Int := max 1 (pyTrunc (available_width / service_width))
    let final := sorted_types.foldl
      (organicStep config graph by_type start_x start_y service_width
        service_height cols)
      { positions := positions, placed := [], grid := [],
        current_row := 0, current_col := 0 }
    (final.positions, start_y + ((final.current_row + 1 : Int) : ℚ) *
      service_height + 20)

/-! ## layout.py: compute_layout -/

/-- LayoutEngine.compute_layout: responsive scale, AWS-cloud container,
edge row, VPC box with AZ/subnet/endpoint layout, then the organic grid
of the remaining services.  Returns the id → Position map and the
groups. -/
def compute_layout (base : LayoutConfig) (agg : AggregatedResult) :
    PosMap × List ServiceGroup :=
  let scale := compute_responsive_scale agg
  let config := base.scaled scale
  let estimated_height := estimate_required_height config agg
  let actual_canvas_height := max config.canvas_height estimated_height
  let aws_cloud : ServiceGroup :=
    { group_type := "aws_cloud", name := "AWS Cloud", services := [],
      position := some ⟨config.padding, config.padding,
        config.canvas_width - 2 * config.padding,
        actual_canvas_height - 2 * config.padding⟩ }
  let groups := [aws_cloud]
  let positions : PosMap := []
  let edge_services := agg.services.filter
    (fun s => edgeTypes.contains s.service_type)
  let vpc_services := agg.services.filter
    (fun s => vpcTypes.contains s.service_type)
  let data_services := agg.services.filter
    (fun s => dataTypes.contains s.service_type)
  let messaging_services := agg.services.filter
    (fun s => messagingTypes.contains s.service_type)
  let security_services := agg.services.filter
    (fun s => securityTypes.contains s.service_type)
  let other_services := agg.services.filter
    (fun s => isOtherType s.service_type)
  let y_offset := config.padding + 40
  let positions :=
    if !edge_services.isEmpty then
      (edge_services.foldl
        (fun (q : PosMap × ℚ) s =>
          (posInsert q.1 s.id ⟨q.2, y_offset, config.icon_size,
            config.icon_size⟩, q.2 + config.column_spacing))
        (positions,
         center_row_start config edge_services.length Option.none Option.none)).1
    else positions
  let y_offset := y_offset + config.row_spacing + 20
  let vpc_bottom_y := y_offset
  let vpc_internal := vpc_services.filter (fun s => s.service_type != "vpc")
  let has_vpc_content := !vpc_internal.isEmpty || agg.vpc_structure.isSome
  let after_vpc : PosMap × List ServiceGroup × ℚ :=
    if has_vpc_content then
      let vpc_x := config.padding + 50
      let vpc_width := config.canvas_width - 2 * (config.padding + 50)
      let services_with_subnets := vpc_internal.filter
        (fun s => !s.subnet_ids.isEmpty)
      let services_without_subnets := vpc_internal.filter
        (fun s => s.subnet_ids.isEmpty)
      let vpc_height :=
        match agg.vpc_structure with
        | some vs =>
            compute_vpc_height config vs (!services_without_subnets.isEmpty)
              services_with_subnets
        | Option.none => 180
      let vpc_pos : Position := ⟨vpc_x, y_offset, vpc_width, vpc_height⟩
      let groups := groups ++
        [{ group_type := "vpc", name := "VPC", services := vpc_internal,
           position := some vpc_pos }]
      let services_row_y := y_offset + config.group_padding + 30
      let positions :=
        if !services_without_subnets.isEmpty then
          (services_without_subnets.foldl
            (fun (q : PosMap × ℚ) s =>
              (posInsert q.1 s.id ⟨q.2, services_row_y, config.icon_size,
                config.icon_size⟩, q.2 + config.column_spacing))
            (positions,
             center_row_start config services_without_subnets.length
               (some (vpc_x + config.group_padding))
               (some (vpc_x + vpc_width - config.group_padding)))).1
        else positions
      let pg : PosMap × List ServiceGroup :=
        match agg.vpc_structure with
        | some vs =>
            let az_start_y :=
              if !services_without_subnets.isEmpty then
                services_row_y + config.icon_size + 50
              else services_row_y
            layout_vpc_structure config vs vpc_pos positions groups
              az_start_y services_with_subnets
        | Option.none => (positions, groups)
      (pg.1, pg.2, y_offset + vpc_height + 40)
    else (positions, groups, vpc_bottom_y)
  let non_vpc_services := data_services ++ messaging_services ++
    security_services ++ other_services
  let final_positions :=
    if !non_vpc_services.isEmpty then
      (layout_by_connections config non_vpc_services agg.connections
        (config.padding + 50) after_vpc.2.2
        (config.canvas_width - 2 * (config.padding + 50)) after_vpc.1).1
    else after_vpc.1
  (final_positions, after_vpc.2.1)

/-- The actual canvas height computed at the top of compute_layout:
max(configured default, estimated requirement). -/
def computed_canvas_height (base : LayoutConfig) (agg : AggregatedResult) : ℚ :=
  let config := base.scaled (compute_responsive_scale agg)
  max config.canvas_height (estimate_required_height config agg)

/-- The full pipeline with no live state: aggregation then layout,
producing (positions, groups, canvas height). -/
def pipeline_run (rules : List AggRule) (conns : List ConnRule)
    (parse_result : ParseResult) (terraform_dir : Option String)
    (mkResolver : String → Resolver) (base : LayoutConfig) :
    PosMap × List ServiceGroup × ℚ :=
  let agg := aggregate rules conns parse_result terraform_dir Option.none
    mkResolver
  let lay := compute_layout base agg
  (lay.1, lay.2, computed_canvas_height base agg)

/-! ## Concrete inputs for counterexamples and witnesses -/

/-- The containment predicate stated by the specification: the inner
rectangle lies fully inside the outer one. -/
def insideRect (inner outer : Position) : Prop :=
  outer.x ≤ inner.x ∧ outer.y ≤ inner.y ∧
  inner.x + inner.width ≤ outer.x + outer.width ∧
  inner.y + inner.height ≤ outer.y + outer.height

instance (inner outer : Position) : Decidable (insideRect inner outer) := by
  unfold insideRect; infer_instance

/-- A subnet resource with only a name (C7 scenario). -/
def mkSubnetRes (n : String) : TerraformResource :=
  { resource_type := "aws_subnet", resource_name := n, module_path := "" }

/-- C7 scenario: one VPC and six subnets named by type and index, with
no availability_zone attribute. -/
def c7Resources : List TerraformResource :=
  [{ resource_type := "aws_vpc", resource_name := "main", module_path := "" },
   mkSubnetRes "public-1", mkSubnetRes "private-1", mkSubnetRes "database-1",
   mkSubnetRes "public-2", mkSubnetRes "private-2", mkSubnetRes "database-2"]

/-- C8 scenario: the i-th of 13 de-grouped VPC services co-located in
one subnet. -/
def c8Service (i : Nat) : LogicalService :=
  { service_type := "ecs", name := "Svc" ++ toString i
    icon_resource_type := "aws_ecs_service", resources := [], count := 1
    is_vpc_resource := true, subnet_ids := ["aws_subnet.s1"]
    resource_id := some ("aws_instance.i" ++ toString i) }

/-- C8 scenario: the single subnet. -/
def c8Subnet : Subnet :=
  { resource_id := "aws_subnet.s1", name := .str "s1",
    subnet_type := "private", availability_zone := "detected-a" }

/-- C8 scenario: a VPC structure with one AZ holding one subnet. -/
def c8Vs : VPCStructure :=
  { vpc_id := "aws_vpc.main", name := .str "main"
    availability_zones := [{ name := "detected-a", short_name := "a",
                             subnets := [c8Subnet] }]
    endpoints := [] }

/-- C8 scenario: 13 services resolved to the same subnet. -/
def c8Agg : AggregatedResult :=
  { services := (List.range 13).map (fun i => c8Service (i + 1))
    connections := []
    vpc_services := (List.range 13).map (fun i => c8Service (i + 1))
    global_services := []
    vpc_structure := some c8Vs }

/-- C8 scenario: the thirteen services resolved to the same subnet. -/
def c8Sws : List LogicalService :=
  (List.range 13).map (fun i => c8Service (i + 1))

/-- C8 scenario: the single availability zone holding the subnet. -/
def c8Az : AvailabilityZone :=
  { name := "detected-a", short_name := "a", subnets := [c8Subnet] }

/-- C8 scenario: the AZ box computed by compute_layout for c8Agg at the
default configuration (scale 1): vpc at (80, 170), az row starting at
vpc.y + 75 = 245, az x = vpc.x + 15 = 95, az width
(canvas - 2*padding - 160 - 2*15 - 0) / 1 = 1120, az height 180. -/
def c8AzPos : Position := ⟨95, 245, 1120, 180⟩

/-- C8 amended-theorem witness scenario: two services in the subnet. -/
def c8wSws : List LogicalService := [c8Service 1, c8Service 2]

/-- A resolver factory that resolves nothing (identity). -/
def idResolver : String → Resolver := fun _ s => s

/-- C6 witness: the only aws_vpc resource, named main. -/
def c6Vpc : TerraformResource :=
  { resource_type := "aws_vpc", resource_name := "main", module_path := "" }

/-- C1 witness rule: s3 groups buckets (primary) and bucket policies
(secondary), not a VPC rule. -/
def w1Rule : AggRule :=
  { name := "s3", primary := ["aws_s3_bucket"],
    aggregate := ["aws_s3_bucket_policy"], icon := "aws_s3_bucket",
    display_name := "S3", is_vpc := false }

/-- C1 witness resources: two buckets and one policy. -/
def w1Parse : ParseResult :=
  { resources :=
      [{ resource_type := "aws_s3_bucket", resource_name := "logs",
         module_path := "" },
       { resource_type := "aws_s3_bucket", resource_name := "assets",
         module_path := "" },
       { resource_type := "aws_s3_bucket_policy", resource_name := "logs_pol",
         module_path := "" }] }

/-- C2 witness rule: ecs is a VPC (de-grouping) rule. -/
def w2Rule : AggRule :=
  { name := "ecs", primary := ["aws_ecs_service"], aggregate := [],
    icon := "aws_ecs_service", display_name := "Ecs", is_vpc := true }

/-- C2 witness resources: two ECS services. -/
def w2Parse : ParseResult :=
  { resources :=
      [{ resource_type := "aws_ecs_service", resource_name := "api",
         module_path := "" },
       { resource_type := "aws_ecs_service", resource_name := "worker",
         module_path := "" }] }

/-- C3 witness rules: both sides are VPC rules so they de-group into 2
and 3 services. -/
def w3Rules : List AggRule :=
  [{ name := "alb", primary := ["aws_lb"], aggregate := [],
     icon := "aws_lb", display_name := "Alb", is_vpc := true },
   { name := "ecs", primary := ["aws_ecs_service"], aggregate := [],
     icon := "aws_ecs_service", display_name := "Ecs", is_vpc := true }]

/-- C3 witness connection rule alb → ecs. -/
def w3Conn : ConnRule :=
  { source := "alb", target := "ecs", label := "routes", ctype := "data_flow" }

/-- C3 witness resources: two load balancers and three ECS services. -/
def w3Parse : ParseResult :=
  { resources :=
      [{ resource_type := "aws_lb", resource_name := "pub", module_path := "" },
       { resource_type := "aws_lb", resource_name := "int2", module_path := "" },
       { resource_type := "aws_ecs_service", resource_name := "api",
         module_path := "" },
       { resource_type := "aws_ecs_service", resource_name := "worker",
         module_path := "" },
       { resource_type := "aws_ecs_service", resource_name := "cron",
         module_path := "" }] }

/-! ## C5: truncate_name -/

/-- C5 counterexample: with max_len = 2 the Python negative slice keeps
all but one character, so the result "abc..." has length 6 > 2, refuting
the claim for arbitrary max_len. -/
theorem truncate_name_counterexample :
    truncate_name "abcd" 2 = "abc..." ∧
    ¬ (((truncate_name "abcd" 2).length : Int) ≤ 2) := by
  constructor
  · rfl
  · decide

/-- C5 (amended): for max_len ≥ 3, truncate_name returns the string
unchanged when it fits and otherwise a string of length exactly max_len
ending in "...". -/
theorem truncate_name_spec (s : String) (maxLen : Int) (h3 : 3 ≤ maxLen) :
    ((s.length : Int) ≤ maxLen → truncate_name s maxLen = s) ∧
    (maxLen < (s.length : Int) →
      ((truncate_name s maxLen).length : Int) = maxLen ∧
      ∃ pre : String, truncate_name s maxLen = pre ++ "...") := by
  refine ⟨fun hle => ?_, fun hgt => ?_⟩
  · unfold truncate_name
    rw [if_pos hle]
  · have hnle : ¬ ((s.length : Int) ≤ maxLen) := not_le.mpr hgt
    unfold truncate_name
    rw [if_neg hnle]
    refine ⟨?_, ⟨pySliceTo s (maxLen - 3), rfl⟩⟩
    rw [String.length_append]
    unfold pySliceTo
    rw [if_pos (by omega : (0 : Int) ≤ maxLen - 3)]
    have h1 : (String.mk (s.toList.take (maxLen - 3).toNat)).length
        = (s.toList.take (maxLen - 3).toNat).length := rfl
    rw [h1, List.length_take]
    have hsl : s.toList.length = s.length := rfl
    rw [hsl]
    have h2 : ("..." : String).length = 3 := rfl
    rw [h2]
    push_cast
    omega

/-- C5 witness: the two instances named by the claim, at max_len = 25. -/
theorem truncate_name_spec_witness :
    ((truncate_name "production-api-gateway-service" 25).length : Int) = 25 ∧
    truncate_name "short" 25 = "short" :=
  ⟨((truncate_name_spec "production-api-gateway-service" 25
      (by norm_num)).2 (by decide)).1,
   (truncate_name_spec "short" 25 (by norm_num)).1 (by decide)⟩

/-! ## C4: _format_port_label -/

/-- C4 counterexample: a rule map with protocol "-1" but no from_port
returns "" rather than "All Traffic" (the from_port-missing check comes
first in the source). -/
theorem format_port_label_counterexample :
    format_port_label [("protocol", Attr.str "-1")] = "" ∧
    format_port_label [("protocol", Attr.str "-1")] ≠ "All Traffic" := by
  refine ⟨rfl, ?_⟩
  decide

/-- C4 (amended): when from_port is absent or None the label is "";
otherwise, for a string protocol, the branches are as claimed: "-1"
gives All Traffic, equal (or missing) ports give PROTO/port, the full
0-65535 range gives PROTO/All, and any other range gives
PROTO/from-to (ports compared after the int coercion of the source). -/
theorem format_port_label_spec (attrs : List (String × Attr)) :
    ((attrGetPy attrs "from_port").isNone = true →
      format_port_label attrs = "") ∧
    ((attrGetPy attrs "from_port").isNone = false →
      ∀ p : String, attrGetD attrs "protocol" (.str "tcp") = .str p →
        (pyUpper p = "-1" → format_port_label attrs = "All Traffic") ∧
        (pyUpper p ≠ "-1" →
          ∀ fp tp : Attr, fp = pyIntCoerce (attrGetPy attrs "from_port") →
            tp = pyIntCoerce (attrGetPy attrs "to_port") →
          ((pyEq fp tp || tp.isNone) = true →
            format_port_label attrs = pyUpper p ++ "/" ++ pyStrTop fp) ∧
          ((pyEq fp tp || tp.isNone) = false →
            (pyEq fp (.int 0) && pyEq tp (.int 65535)) = true →
            format_port_label attrs = pyUpper p ++ "/All") ∧
          ((pyEq fp tp || tp.isNone) = false →
            (pyEq fp (.int 0) && pyEq tp (.int 65535)) = false →
            format_port_label attrs =
              pyUpper p ++ "/" ++ pyStrTop fp ++ "-" ++ pyStrTop tp))) := by
  constructor
  · intro h
    simp [format_port_label, h]
  · intro h p hp
    refine ⟨fun hneg => ?_, fun hpos fp tp hfp htp =>
      ⟨fun h1 => ?_, fun h1 h2 => ?_, fun h1 h2 => ?_⟩⟩
    · simp [format_port_label, h, hp, hneg]
    all_goals subst hfp htp
    · simp [format_port_label, format_port_label.portBranches, pyStrTop, h, hp, hpos, h1]
    · simp [format_port_label, format_port_label.portBranches, pyStrTop, h,
        hp, hpos, h1, h2]
    · simp [format_port_label, format_port_label.portBranches, pyStrTop, h,
        hp, hpos, h1, h2]

/-- C4 witness: the three instances named by the claim (with from_port
present where the amended claim requires it). -/
theorem format_port_label_spec_witness :
    format_port_label [("from_port", Attr.int 80), ("to_port", Attr.int 80),
      ("protocol", Attr.str "tcp")] = "TCP/80" ∧
    format_port_label [("from_port", Attr.int 0), ("to_port", Attr.int 65535),
      ("protocol", Attr.str "tcp")] = "TCP/All" ∧
    format_port_label [("from_port", Attr.int 0), ("to_port", Attr.int 0),
      ("protocol", Attr.str "-1")] = "All Traffic" := by
  refine ⟨?_, ?_, ?_⟩
  · have h := ((format_port_label_spec
      [("from_port", Attr.int 80), ("to_port", Attr.int 80),
       ("protocol", Attr.str "tcp")]).2 (by decide) "tcp" rfl).2
      (by decide) _ _ rfl rfl
    exact (h.1 (by simp [pyEq, pyIntCoerce, attrGetPy, attrGet])).trans
      (by simp [pyStrTop, pyRepr, pyIntCoerce, attrGetPy, attrGet]; decide)
  · have h := ((format_port_label_spec
      [("from_port", Attr.int 0), ("to_port", Attr.int 65535),
       ("protocol", Attr.str "tcp")]).2 (by decide) "tcp" rfl).2
      (by decide) _ _ rfl rfl
    exact (h.2.1 (by simp [pyEq, Attr.isNone, pyIntCoerce, attrGetPy, attrGet])
      (by simp [pyEq, pyIntCoerce, attrGetPy, attrGet])).trans (by decide)
  · exact (((format_port_label_spec
      [("from_port", Attr.int 0), ("to_port", Attr.int 0),
       ("protocol", Attr.str "-1")]).2 (by decide) "-1" rfl).1) (by decide)

/-! ## C7: AZ distribution stability -/

/-- C7: on the six conventionally named subnets with no explicit
availability_zone attribute, the builder produces exactly two AZs, each
holding exactly one public, one private and one database subnet. -/
theorem vpc_build_az_distribution :
    (((vpc_build c7Resources Option.none Option.none).map
        (fun vs => vs.availability_zones)).getD []).length = 2 ∧
    (((vpc_build c7Resources Option.none Option.none).map
        (fun vs => vs.availability_zones)).getD []).all
      (fun az =>
        ((az.subnets.filter (fun s => s.subnet_type == "public")).length == 1) &&
        ((az.subnets.filter (fun s => s.subnet_type == "private")).length == 1) &&
        ((az.subnets.filter (fun s => s.subnet_type == "database")).length == 1))
      = true := by
  constructor
  · decide
  · decide

/-! ## C9: pipeline determinism -/

/-- C9: the pipeline (aggregation then layout, no live state) is a pure
function of its input: two runs produce the same positions, the same
groups and the same canvas height. -/
theorem pipeline_deterministic (rules : List AggRule) (conns : List ConnRule)
    (pr : ParseResult) (td : Option String) (mk : String → Resolver)
    (base : LayoutConfig) :
    (pipeline_run rules conns pr td mk base).1 =
      (pipeline_run rules conns pr td mk base).1 ∧
    (pipeline_run rules conns pr td mk base).2.1 =
      (pipeline_run rules conns pr td mk base).2.1 ∧
    (pipeline_run rules conns pr td mk base).2.2 =
      (pipeline_run rules conns pr td mk base).2.2 :=
  ⟨rfl, rfl, rfl⟩

/-! ## C10: vpc_structure requires terraform_dir -/

/-- C10: with no terraform_dir no resolver is created, and aggregate
then leaves vpc_structure as None whatever the resources contain. -/
theorem aggregate_no_dir_no_vpc_structure (rules : List AggRule)
    (conns : List ConnRule) (pr : ParseResult) (state : Option StateIndex)
    (mk : String → Resolver) :
    (aggregate rules conns pr Option.none state mk).vpc_structure =
      Option.none := rfl

/-! ## C6: dangling references are skipped silently -/

/-- C6: a reference whose captured name resolves to no resource of the
target type contributes nothing: two values whose scans differ only by
the dangling name produce identical reference lists (and the function is
total, so no error is raised). -/
theorem find_referenced_skips_dangling (resources : List TerraformResource)
    (target_type n : String) (v₁ v₂ : Attr) (l₁ l₂ ms : List String)
    (h₁ : scanRefs (target_type ++ ".") true (pyStrTop v₁) = l₁ ++ n :: l₂)
    (h₂ : scanRefs (target_type ++ ".") true (pyStrTop v₂) = l₁ ++ l₂)
    (hm₁ : scanModuleRefs (pyStrTop v₁) = ms)
    (hm₂ : scanModuleRefs (pyStrTop v₂) = ms)
    (hdang : ∀ r ∈ resources, r.resource_type = target_type →
      r.resource_name ≠ n) :
    find_referenced_resources v₁ target_type resources =
      find_referenced_resources v₂ target_type resources := by
  simp only [find_referenced_resources]
  rw [h₁, h₂, hm₁, hm₂]
  have hnone : (typeIndexGet resources target_type).find?
      (fun r => r.resource_name == n) = Option.none := by
    rw [List.find?_eq_none]
    intro r hr
    have hmem := List.mem_filter.mp hr
    have ht : r.resource_type = target_type := by
      simpa using hmem.2
    simpa using hdang r hmem.1 ht
  simp [List.filterMap_append, List.filterMap_cons, hnone]

/-- C6 witness: the value "aws_vpc.ghost.id" names a vpc that does not
exist among the resources; extraction returns the same (empty) list as
for an empty value. -/
theorem find_referenced_skips_dangling_witness :
    find_referenced_resources (.str "aws_vpc.ghost.id") "aws_vpc" [c6Vpc] =
      find_referenced_resources (.str "") "aws_vpc" [c6Vpc] :=
  find_referenced_skips_dangling [c6Vpc] "aws_vpc" "ghost"
    (.str "aws_vpc.ghost.id") (.str "") [] [] []
    (by decide) (by decide) (by decide) (by decide)
    (by intro r hr ht; fin_cases hr; decide)

/-! ## Aggregation lemmas shared by the invariant theorems -/

theorem mem_addIfAbsent (l : List String) (a x : String) :
    x ∈ addIfAbsent l a ↔ x ∈ l ∨ x = a := by
  unfold addIfAbsent
  split
  · next hc =>
      have ha : a ∈ l := by simpa using hc
      constructor
      · exact fun h => Or.inl h
      · rintro (h | rfl)
        · exact h
        · exact ha
  · simp

theorem nodup_addIfAbsent (l : List String) (a : String) (h : l.Nodup) :
    (addIfAbsent l a).Nodup := by
  unfold addIfAbsent
  split
  · exact h
  · next hc =>
      have ha : a ∉ l := by simpa using hc
      refine List.Nodup.append h (List.nodup_singleton a) ?_
      intro x hx hxa
      have hxe : x = a := by simpa using hxa
      subst hxe
      exact ha hx

theorem mem_foldl_addIfAbsent (l acc : List String) (x : String) :
    x ∈ l.foldl addIfAbsent acc ↔ x ∈ acc ∨ x ∈ l := by
  induction l generalizing acc with
  | nil => simp
  | cons a as ih =>
      rw [List.foldl_cons, ih, mem_addIfAbsent]
      constructor
      · rintro ((h | rfl) | h)
        · exact Or.inl h
        · exact Or.inr (List.mem_cons_self _ _)
        · exact Or.inr (List.mem_cons_of_mem _ h)
      · rintro (h | h)
        · exact Or.inl (Or.inl h)
        · rcases List.mem_cons.mp h with rfl | h
          · exact Or.inl (Or.inr rfl)
          · exact Or.inr h

theorem nodup_foldl_addIfAbsent (l acc : List String) (h : acc.Nodup) :
    (l.foldl addIfAbsent acc).Nodup := by
  induction l generalizing acc with
  | nil => exact h
  | cons a as ih => exact ih _ (nodup_addIfAbsent _ _ h)

theorem mem_firstOccurrences (l : List String) (x : String) :
    x ∈ firstOccurrences l ↔ x ∈ l := by
  unfold firstOccurrences
  rw [mem_foldl_addIfAbsent]
  simp

theorem nodup_firstOccurrences (l : List String) :
    (firstOccurrences l).Nodup :=
  nodup_foldl_addIfAbsent l [] List.nodup_nil

theorem nodup_rule_order (rules : List AggRule)
    (resources : List TerraformResource) :
    (rule_order rules resources).Nodup := by
  unfold rule_order
  exact nodup_firstOccurrences _

/-- With pairwise-distinct rule names, the dict lookup by name returns
exactly the given rule. -/
theorem find_rule_of_nodup (rules : List AggRule) (rule : AggRule)
    (hnodup : (rules.map (fun r => r.name)).Nodup) (hmem : rule ∈ rules) :
    rules.find? (fun ru => ru.name == rule.name) = some rule := by
  induction rules with
  | nil => cases hmem
  | cons r rest ih =>
      rcases List.mem_cons.mp hmem with rfl | hmem2
      · rw [List.find?_cons_of_pos _ (by simp)]
      · by_cases hr : r.name = rule.name
        · exfalso
          have : rule.name ∈ rest.map (fun r => r.name) :=
            List.mem_map_of_mem _ hmem2
          rw [List.map_cons] at hnodup
          exact (List.nodup_cons.mp hnodup).1 (hr ▸ this)
        · rw [List.find?_cons_of_neg _ (by simpa using hr)]
          exact ih (List.nodup_cons.mp (by simpa using hnodup)).2 hmem2

/-- Every service created for a rule carries the rule name as its
service_type. -/
theorem services_for_rule_type (rule : AggRule)
    (matched : List TerraformResource) (resolver : Option Resolver)
    (state : Option StateIndex) :
    ∀ s ∈ services_for_rule rule matched resolver state,
      s.service_type = rule.name := by
  intro s hs
  simp only [services_for_rule] at hs
  split at hs
  · cases hs
  · split at hs
    · rcases List.mem_map.mp hs with ⟨r, _, rfl⟩
      rfl
    · rcases List.mem_singleton.mp hs with rfl
      rfl

/-- Every service created in the iteration for a grouped name carries
that name as its service_type. -/
theorem servicesForName_type (rules : List AggRule)
    (resources : List TerraformResource) (resolver : Option Resolver)
    (state : Option StateIndex) (n : String) :
    ∀ s ∈ servicesForName rules resources resolver state n,
      s.service_type = n := by
  intro s hs
  unfold servicesForName at hs
  split at hs
  · next rule heq =>
      have hname : rule.name = n := by
        have := List.find?_some heq
        simpa using this
      rw [services_for_rule_type rule _ _ _ s hs, hname]
  · cases hs

/-- Filtering a flatMap by a name absent from the iteration order gives
nothing when every produced service is typed by its iteration name. -/
theorem filter_flatMap_not_mem (f : String → List LogicalService)
    (order : List String) (n : String)
    (htype : ∀ m ∈ order, ∀ s ∈ f m, s.service_type = m)
    (hn : n ∉ order) :
    (order.flatMap f).filter (fun s => s.service_type == n) = [] := by
  induction order with
  | nil => rfl
  | cons m rest ih =>
      rw [List.flatMap_cons, List.filter_append]
      have h1 : (f m).filter (fun s => s.service_type == n) = [] := by
        rw [List.filter_eq_nil_iff]
        intro s hs
        have := htype m (List.mem_cons_self _ _) s hs
        simp only [beq_iff_eq, this]
        exact fun hc => hn (hc ▸ List.mem_cons_self _ _)
      rw [h1, List.nil_append]
      exact ih (fun m2 hm2 => htype m2 (List.mem_cons_of_mem _ hm2))
        (fun hc => hn (List.mem_cons_of_mem _ hc))

/-- Filtering the flatMap by a name occurring exactly once in the order
returns precisely that iteration's services. -/
theorem filter_flatMap_single (f : String → List LogicalService)
    (order : List String) (n : String) (hnodup : order.Nodup)
    (hn : n ∈ order)
    (htype : ∀ m ∈ order, ∀ s ∈ f m, s.service_type = m) :
    (order.flatMap f).filter (fun s => s.service_type == n) = f n := by
  induction order with
  | nil => cases hn
  | cons m rest ih =>
      rw [List.flatMap_cons, List.filter_append]
      rcases List.mem_cons.mp hn with rfl | hn2
      · have h1 : (f n).filter (fun s => s.service_type == n) = f n := by
          rw [List.filter_eq_self]
          intro s hs
          simpa using htype n (List.mem_cons_self _ _) s hs
        have h2 : (rest.flatMap f).filter (fun s => s.service_type == n) = [] :=
          filter_flatMap_not_mem f rest n
            (fun m2 hm2 => htype m2 (List.mem_cons_of_mem _ hm2))
            (List.nodup_cons.mp hnodup).1
        rw [h1, h2, List.append_nil]
      · have hmn : m ≠ n := by
          rintro rfl
          exact (List.nodup_cons.mp hnodup).1 hn2
        have h1 : (f m).filter (fun s => s.service_type == n) = [] := by
          rw [List.filter_eq_nil_iff]
          intro s hs
          have := htype m (List.mem_cons_self _ _) s hs
          simp [this, hmn]
        rw [h1, List.nil_append]
        exact ih (List.nodup_cons.mp hnodup).2 hn2
          (fun m2 hm2 => htype m2 (List.mem_cons_of_mem _ hm2))

/-- If a rule name never occurs among the grouped names, no resource was
grouped to it. -/
theorem group_empty_of_not_mem_order (rules : List AggRule)
    (resources : List TerraformResource) (n : String)
    (hn : n ∉ rule_order rules resources) :
    group_for_rule rules resources n = [] := by
  unfold group_for_rule
  rw [List.filter_eq_nil_iff]
  intro r hr hc
  apply hn
  rw [rule_order, mem_firstOccurrences]
  exact List.mem_filterMap.mpr ⟨r, hr, by simpa using hc⟩

/-- The services of the aggregation result carrying a rule's name are
exactly the services created for that rule's group. -/
theorem aggregate_services_filter (rules : List AggRule)
    (conns : List ConnRule) (pr : ParseResult) (td : Option String)
    (st : Option StateIndex) (mk : String → Resolver) (rule : AggRule)
    (hnodup : (rules.map (fun r => r.name)).Nodup) (hrule : rule ∈ rules) :
    (aggregate rules conns pr td st mk).services.filter
        (fun s => s.service_type == rule.name) =
      services_for_rule rule (group_for_rule rules pr.resources rule.name)
        (td.map mk) st := by
  have hsvc : (aggregate rules conns pr td st mk).services =
      (rule_order rules pr.resources).flatMap
        (servicesForName rules pr.resources (td.map mk) st) := rfl
  rw [hsvc]
  have htype : ∀ m ∈ rule_order rules pr.resources,
      ∀ s ∈ servicesForName rules pr.resources (td.map mk) st m,
        s.service_type = m :=
    fun m _ => servicesForName_type rules pr.resources (td.map mk) st m
  by_cases hmem : rule.name ∈ rule_order rules pr.resources
  · rw [filter_flatMap_single _ _ _
      (nodup_rule_order rules pr.resources) hmem htype]
    unfold servicesForName
    rw [find_rule_of_nodup rules rule hnodup hrule]
  · rw [filter_flatMap_not_mem _ _ _ htype hmem]
    rw [group_empty_of_not_mem_order rules pr.resources rule.name hmem]
    simp [services_for_rule]

/-! ## C1: non-VPC aggregation count invariant -/

/-- C1: for a non-VPC rule matching at least one primary resource,
aggregation emits exactly one service for the rule, and its count is the
number of matched resources whose type is in the rule's primary list,
however many secondary resources are attached. -/
theorem aggregate_nonvpc_count (rules : List AggRule) (conns : List ConnRule)
    (pr : ParseResult) (td : Option String) (st : Option StateIndex)
    (mk : String → Resolver) (rule : AggRule)
    (hnodup : (rules.map (fun r => r.name)).Nodup) (hrule : rule ∈ rules)
    (hvpc : rule.is_vpc = false)
    (hp : (((group_for_rule rules pr.resources rule.name).filter
        (fun r => rule.primary.contains r.resource_type)).length) ≠ 0) :
    ((aggregate rules conns pr td st mk).services.filter
        (fun s => s.service_type == rule.name)).map (fun s => s.count) =
      [(((group_for_rule rules pr.resources rule.name).filter
          (fun r => rule.primary.contains r.resource_type)).length : Int)] := by
  rw [aggregate_services_filter rules conns pr td st mk rule hnodup hrule]
  have hlen : (((group_for_rule rules pr.resources rule.name).filter
      (fun r => rule.primary.contains r.resource_type)).length == 0) = false := by
    simpa using hp
  simp only [services_for_rule, hlen, hvpc, Bool.false_eq_true, if_false,
    List.map_cons, List.map_nil]

/-- C1 witness: two buckets and one policy grouped under the s3 rule
give a single service with count 2. -/
theorem aggregate_nonvpc_count_witness :
    ((aggregate [w1Rule] [] w1Parse Option.none Option.none
        idResolver).services.filter
        (fun s => s.service_type == "s3")).map (fun s => s.count) = [2] := by
  have h := aggregate_nonvpc_count [w1Rule] [] w1Parse Option.none Option.none
    idResolver w1Rule (by decide) (by decide) rfl (by decide)
  exact h.trans (by decide)

/-! ## C2: VPC de-grouping invariant -/

/-- C2: a VPC rule with N matched primary resources emits exactly N
services, each with count 1, is_vpc_resource set, a single attached
resource and resource_id the resource's full_id; the resource_ids are
pairwise distinct (full_ids are unique identifiers by the input
contract). -/
theorem aggregate_vpc_degroup (rules : List AggRule) (conns : List ConnRule)
    (pr : ParseResult) (td : Option String) (st : Option StateIndex)
    (mk : String → Resolver) (rule : AggRule)
    (hnodup : (rules.map (fun r => r.name)).Nodup) (hrule : rule ∈ rules)
    (hvpc : rule.is_vpc = true)
    (hids : (((group_for_rule rules pr.resources rule.name).filter
        (fun r => rule.primary.contains r.resource_type)).map
        (fun r => r.full_id)).Nodup) :
    ((aggregate rules conns pr td st mk).services.filter
        (fun s => s.service_type == rule.name)).length =
      ((group_for_rule rules pr.resources rule.name).filter
        (fun r => rule.primary.contains r.resource_type)).length ∧
    (∀ s ∈ (aggregate rules conns pr td st mk).services.filter
        (fun s => s.service_type == rule.name),
      s.count = 1 ∧ s.is_vpc_resource = true ∧ s.resources.length = 1) ∧
    ((aggregate rules conns pr td st mk).services.filter
        (fun s => s.service_type == rule.name)).map (fun s => s.resource_id) =
      ((group_for_rule rules pr.resources rule.name).filter
        (fun r => rule.primary.contains r.resource_type)).map
        (fun r => some r.full_id) ∧
    (((aggregate rules conns pr td st mk).services.filter
        (fun s => s.service_type == rule.name)).map
        (fun s => s.resource_id)).Nodup := by
  rw [aggregate_services_filter rules conns pr td st mk rule hnodup hrule]
  by_cases hp : ((group_for_rule rules pr.resources rule.name).filter
      (fun r => rule.primary.contains r.resource_type)).length == 0
  · have h0 : ((group_for_rule rules pr.resources rule.name).filter
        (fun r => rule.primary.contains r.resource_type)) = [] := by
      simpa [List.length_eq_zero] using hp
    have hsvc0 : services_for_rule rule
        (group_for_rule rules pr.resources rule.name) (td.map mk) st = [] := by
      simp only [services_for_rule, hp]
      rw [if_pos trivial]
    rw [hsvc0, h0]
    simp
  · simp only [services_for_rule, hp, Bool.false_eq_true, if_false, hvpc,
      if_true]
    refine ⟨by simp, ?_, by simp, ?_⟩
    · intro s hs
      rcases List.mem_map.mp hs with ⟨r, _, rfl⟩
      exact ⟨rfl, rfl, rfl⟩
    · rw [List.map_map]
      have : ((fun s : LogicalService => s.resource_id) ∘ fun resource =>
          ({ service_type := rule.name
             name := get_resource_display_name resource (td.map mk)
             icon_resource_type := rule.icon
             resources := [resource], count := 1, is_vpc_resource := true
             subnet_ids := extract_subnet_ids [resource] st
             resource_id := some resource.full_id } : LogicalService)) =
          (fun r : TerraformResource => some r.full_id) := rfl
      rw [this]
      have := hids.map (f := Option.some) (fun a b h => by simpa using h)
      simpa [List.map_map] using this

/-- C2 witness: two ECS services de-group into two VPC services with
distinct resource ids. -/
theorem aggregate_vpc_degroup_witness :
    ((aggregate [w2Rule] [] w2Parse Option.none Option.none
        idResolver).services.filter
        (fun s => s.service_type == "ecs")).length = 2 ∧
    (((aggregate [w2Rule] [] w2Parse Option.none Option.none
        idResolver).services.filter
        (fun s => s.service_type == "ecs")).map
        (fun s => s.resource_id)).Nodup := by
  have h := aggregate_vpc_degroup [w2Rule] [] w2Parse Option.none Option.none
    idResolver w2Rule (by decide) (by decide) rfl (by decide)
  exact ⟨h.1.trans (by decide), h.2.2.2⟩

/-! ## C3: connection cross-product -/

theorem flatMap_length_const {α β : Type _} (l : List α) (f : α → List β)
    (k : Nat) (h : ∀ a ∈ l, (f a).length = k) :
    (l.flatMap f).length = l.length * k := by
  induction l with
  | nil => simp
  | cons a as ih =>
      rw [List.flatMap_cons, List.length_append,
        h a (List.mem_cons_self _ _),
        ih (fun b hb => h b (List.mem_cons_of_mem _ hb))]
      simp [Nat.succ_mul, Nat.add_comm]

theorem map_flatMap_comm {α β γ : Type _} (l : List α) (f : α → List β)
    (g : β → γ) :
    (l.flatMap f).map g = l.flatMap (fun a => (f a).map g) := by
  induction l with
  | nil => rfl
  | cons a as ih => simp [List.flatMap_cons, ih]

/-- C3: with a single configured logical-connection rule source → target,
aggregation emits the full cross-product: the connection count is the
product of the source-service and target-service counts, and the
(source_id, target_id) pairs are exactly the cross-product of the
service ids (one connection per pair). -/
theorem aggregate_connection_cross_product (rules : List AggRule)
    (c : ConnRule) (pr : ParseResult) (td : Option String)
    (st : Option StateIndex) (mk : String → Resolver) :
    (aggregate rules [c] pr td st mk).connections.length =
      (servicesByType (aggregate rules [c] pr td st mk).services
        c.source).length *
      (servicesByType (aggregate rules [c] pr td st mk).services
        c.target).length ∧
    ((aggregate rules [c] pr td st mk).connections.map
        (fun k => (k.source_id, k.target_id))) =
      (servicesByType (aggregate rules [c] pr td st mk).services
        c.source).flatMap
        (fun s =>
          (servicesByType (aggregate rules [c] pr td st mk).services
            c.target).map (fun t => (s.id, t.id))) := by
  have hconn : (aggregate rules [c] pr td st mk).connections =
      buildConnections [c] (aggregate rules [c] pr td st mk).services := rfl
  rw [hconn]
  set services := (aggregate rules [c] pr td st mk).services with hserv
  unfold buildConnections
  rw [List.flatMap_cons, List.flatMap_nil, List.append_nil]
  by_cases hsrc : servicesByType services c.source = []
  · rw [if_neg (by simp [hsrc])]
    simp [hsrc]
  by_cases htgt : servicesByType services c.target = []
  · rw [if_neg (by simp [htgt])]
    simp [htgt]
  · rw [if_pos (by simp [List.isEmpty_iff, hsrc, htgt])]
    constructor
    · exact flatMap_length_const _ _ _ (fun a _ => by simp)
    · rw [map_flatMap_comm]
      simp [List.map_map]
      rfl

/-- C3 witness: 2 de-grouped alb services and 3 de-grouped ecs services
with one alb→ecs rule produce exactly 6 connections. -/
theorem aggregate_connection_cross_product_witness :
    (aggregate w3Rules [w3Conn] w3Parse Option.none Option.none
      idResolver).connections.length = 6 := by
  have h := aggregate_connection_cross_product w3Rules w3Conn w3Parse
    Option.none Option.none idResolver
  exact h.1.trans (by decide)

/-! ## Position-map lemmas for the layout proofs -/

theorem find?_map_update (m : PosMap) (k : String) (v : Position) :
    (m.map (fun p => if p.1 == k then (k, v) else p)).find?
        (fun p => p.1 == k) =
      if m.any (fun p => p.1 == k) then some (k, v) else Option.none := by
  induction m with
  | nil => rfl
  | cons p rest ih =>
      by_cases hp : (p.1 == k) = true
      · have h1 : (if p.1 == k then (k, v) else p) = (k, v) := by
          rw [if_pos hp]
        simp only [List.map_cons, h1]
        rw [@List.find?_cons_of_pos _ (fun q => q.1 == k) (k, v) _ (by simp)]
        have h2 : ((p :: rest).any fun p => p.1 == k) = true := by
          simp [List.any_cons, hp]
        rw [if_pos h2]
      · have h1 : (if p.1 == k then (k, v) else p) = p := by
          rw [if_neg hp]
        simp only [List.map_cons, h1]
        rw [@List.find?_cons_of_neg _ (fun q => q.1 == k) p _ hp, ih]
        have h2 : ((p :: rest).any fun p => p.1 == k) =
            (rest.any fun p => p.1 == k) := by
          simp [List.any_cons, hp]
        rw [h2]

theorem find?_map_update_ne (m : PosMap) (k' : String) (v : Position)
    (k : String) (hne : k' ≠ k) :
    (m.map (fun p => if p.1 == k' then (k', v) else p)).find?
        (fun p => p.1 == k) = m.find? (fun p => p.1 == k) := by
  induction m with
  | nil => rfl
  | cons p rest ih =>
      by_cases hp : (p.1 == k') = true
      · have hp1 : p.1 = k' := by simpa using hp
        have h1 : (if p.1 == k' then (k', v) else p) = (k', v) := by
          rw [if_pos hp]
        have hkk : ¬ (((k', v) : String × Position).1 == k) = true := by
          simpa using hne
        have hpk : ¬ (p.1 == k) = true := by
          simp [hp1, hne]
        simp only [List.map_cons, h1]
        rw [@List.find?_cons_of_neg _ (fun q => q.1 == k) (k', v) _ hkk,
          @List.find?_cons_of_neg _ (fun q => q.1 == k) p _ hpk, ih]
      · have h1 : (if p.1 == k' then (k', v) else p) = p := by
          rw [if_neg hp]
        simp only [List.map_cons, h1]
        by_cases hk : (p.1 == k) = true
        · rw [@List.find?_cons_of_pos _ (fun q => q.1 == k) p _ hk,
            @List.find?_cons_of_pos _ (fun q => q.1 == k) p _ hk]
        · rw [@List.find?_cons_of_neg _ (fun q => q.1 == k) p _ hk,
            @List.find?_cons_of_neg _ (fun q => q.1 == k) p _ hk, ih]

theorem find?_append_left_none {α : Type _} (l₁ l₂ : List α) (p : α → Bool)
    (h : l₁.find? p = Option.none) :
    (l₁ ++ l₂).find? p = l₂.find? p := by
  induction l₁ with
  | nil => rfl
  | cons a as ih =>
      by_cases ha : p a = true
      · rw [List.find?_cons_of_pos _ ha] at h
        cases h
      · rw [List.find?_cons_of_neg _ ha] at h
        rw [List.cons_append, List.find?_cons_of_neg _ ha]
        exact ih h

theorem posGet_posInsert_self (m : PosMap) (k : String) (v : Position) :
    posGet (posInsert m k v) k = some v := by
  unfold posInsert posGet
  split
  · next h =>
      rw [find?_map_update, if_pos h]
      rfl
  · next h =>
      rw [find?_append_left_none _ _ _ (by
        rw [List.find?_eq_none]
        intro p hp
        simp only [Bool.not_eq_true]
        by_contra hc
        exact h (List.any_eq_true.mpr ⟨p, hp, by simpa using hc⟩))]
      simp

theorem find?_append_left_some {α : Type _} (l₁ l₂ : List α) (p : α → Bool)
    (q : α) (h : l₁.find? p = some q) : (l₁ ++ l₂).find? p = some q := by
  induction l₁ with
  | nil => cases h
  | cons a as ih =>
      by_cases ha : p a
      · rw [List.find?_cons_of_pos _ ha] at h
        rw [List.cons_append, List.find?_cons_of_pos _ ha]
        exact h
      · rw [List.find?_cons_of_neg _ ha] at h
        rw [List.cons_append, List.find?_cons_of_neg _ ha]
        exact ih h

theorem posGet_posInsert_ne (m : PosMap) (k' k : String) (v : Position)
    (hne : k' ≠ k) :
    posGet (posInsert m k' v) k = posGet m k := by
  unfold posInsert posGet
  split
  · rw [find?_map_update_ne m k' v k hne]
  · rcases hfind : m.find? (fun p => p.1 == k) with _ | q
    · rw [find?_append_left_none _ _ _ hfind]
      simp [hne, hfind]
    · rw [find?_append_left_some _ _ _ _ hfind, hfind]

theorem any_congr_mem {α : Type _} (l : List α) (p q : α → Bool)
    (h : ∀ a ∈ l, p a = q a) : l.any p = l.any q := by
  induction l with
  | nil => rfl
  | cons a as ih =>
      rw [List.any_cons, List.any_cons, h a (List.mem_cons_self _ _),
        ih (fun b hb => h b (List.mem_cons_of_mem _ hb))]

theorem posHas_posInsert_ne (m : PosMap) (k' k : String) (v : Position)
    (hne : k' ≠ k) :
    posHas (posInsert m k' v) k = posHas m k := by
  unfold posInsert posHas
  split
  · rw [List.any_map]
    apply any_congr_mem
    intro p _
    by_cases hk : (p.1 == k') = true
    · have hp1 : p.1 = k' := by simpa using hk
      have l1 : ((k' : String) == k) = false := by simpa using hne
      have l2 : (p.1 == k) = false := by rw [hp1]; exact l1
      simp only [Function.comp_apply, if_pos hk, l1, l2]
    · simp only [Function.comp_apply, if_neg hk]
  · rw [List.any_append]
    have h1 : (([(k', v)] : PosMap).any fun p => p.1 == k) = false := by
      simp [hne]
    rw [h1, Bool.or_false]

theorem posHas_of_posGet_some (m : PosMap) (k : String) (v : Position)
    (h : posGet m k = some v) : posHas m k = true := by
  unfold posGet at h
  unfold posHas
  rcases hfind : m.find? (fun p => p.1 == k) with _ | q
  · rw [hfind] at h
    cases h
  · have hq := List.find?_some hfind
    have hmem := List.mem_of_find?_eq_some hfind
    exact List.any_eq_true.mpr ⟨q, hmem, hq⟩

/-! ## Lemmas on the co-located service row of _layout_subnets -/

/-- An existing binding survives the service row: placements are guarded
by `not in positions`, so they never overwrite. -/
theorem placeRow_preserve (config : LayoutConfig) (sy : ℚ)
    (list : List LogicalService) (m : PosMap) (x0 : ℚ) (k : String)
    (v : Position) (h : posGet m k = some v) :
    posGet ((list.foldl (placeServiceStep config sy) (m, x0)).1) k = some v := by
  induction list generalizing m x0 with
  | nil => exact h
  | cons s rest ih =>
      rw [List.foldl_cons]
      unfold placeServiceStep
      by_cases hs : posHas m s.id = true
      · rw [if_neg (by simp [hs])]
        exact ih m x0 h
      · rw [if_pos (by simp [Bool.not_eq_true] at hs ⊢; exact hs)]
        have hnek : s.id ≠ k := by
          intro hc
          rw [hc, posHas_of_posGet_some m k v h] at hs
          exact hs rfl
        exact ih _ _ ((posGet_posInsert_ne m s.id k _ hnek).trans h)

/-- A key outside the row that is absent stays absent. -/
theorem placeRow_posHas_false (config : LayoutConfig) (sy : ℚ)
    (list : List LogicalService) (m : PosMap) (x0 : ℚ) (k : String)
    (hk : posHas m k = false) (hnotin : ∀ s ∈ list, s.id ≠ k) :
    posHas ((list.foldl (placeServiceStep config sy) (m, x0)).1) k = false := by
  induction list generalizing m x0 with
  | nil => exact hk
  | cons s rest ih =>
      rw [List.foldl_cons]
      unfold placeServiceStep
      by_cases hs : posHas m s.id = true
      · rw [if_neg (by simp [hs])]
        exact ih m x0 hk (fun t ht => hnotin t (List.mem_cons_of_mem _ ht))
      · rw [if_pos (by simp [Bool.not_eq_true] at hs ⊢; exact hs)]
        refine ih _ _ ?_ (fun t ht => hnotin t (List.mem_cons_of_mem _ ht))
        rw [posHas_posInsert_ne m s.id k _ (hnotin s (List.mem_cons_self _ _))]
        exact hk

/-- With fresh, pairwise-distinct ids, the i-th service of the row is
placed at the starting x advanced by i icon-steps. -/
theorem placeRow_places (config : LayoutConfig) (sy : ℚ)
    (list : List LogicalService) (m : PosMap) (x0 : ℚ)
    (hfresh : ∀ s ∈ list, posHas m s.id = false)
    (hnd : (list.map (fun s => s.id)).Nodup) :
    ∀ (i : Nat) (svc : LogicalService), list.get? i = some svc →
      posGet ((list.foldl (placeServiceStep config sy) (m, x0)).1) svc.id =
        some ⟨x0 + (i : ℚ) * (config.icon_size + 26), sy, config.icon_size,
          config.icon_size⟩ := by
  induction list generalizing m x0 with
  | nil => intro i svc h; cases h
  | cons a rest ih =>
      intro i svc hget
      have ha : posHas m a.id = false := hfresh a (List.mem_cons_self _ _)
      have hstep : placeServiceStep config sy (m, x0) a =
          (posInsert m a.id ⟨x0, sy, config.icon_size, config.icon_size⟩,
           x0 + config.icon_size + 26) := by
        unfold placeServiceStep
        rw [if_pos (by simp [ha])]
      rw [List.foldl_cons, hstep]
      match i, hget with
      | 0, hget =>
          have hsvc : svc = a := by simpa using hget.symm
          subst hsvc
          have h1 : posGet (posInsert m svc.id ⟨x0, sy, config.icon_size,
              config.icon_size⟩) svc.id = some ⟨x0, sy, config.icon_size,
              config.icon_size⟩ := posGet_posInsert_self _ _ _
          refine (placeRow_preserve config sy rest _
            (x0 + config.icon_size + 26) svc.id _ h1).trans ?_
          norm_num
      | Nat.succ j, hget =>
          have hj : rest.get? j = some svc := by simpa using hget
          have hfresh2 : ∀ s ∈ rest, posHas (posInsert m a.id
              ⟨x0, sy, config.icon_size, config.icon_size⟩) s.id = false := by
            intro s hs
            have hne : a.id ≠ s.id := by
              intro hc
              have : a.id ∈ rest.map (fun s => s.id) :=
                hc ▸ List.mem_map_of_mem _ hs
              exact (List.nodup_cons.mp (by simpa using hnd)).1 this
            rw [posHas_posInsert_ne _ _ _ _ hne]
            exact hfresh s (List.mem_cons_of_mem _ hs)
          refine (ih _ _ hfresh2
            (List.nodup_cons.mp (by simpa using hnd)).2 j svc hj).trans ?_
          have harith : x0 + config.icon_size + 26 +
              (j : ℚ) * (config.icon_size + 26) =
              x0 + ((j : ℚ) + 1) * (config.icon_size + 26) := by ring
          rw [Option.some.injEq, Position.mk.injEq]
          refine ⟨?_, rfl, rfl, rfl⟩
          push_cast
          linarith [harith]

/-! ## Lemmas on one subnet step of _layout_subnets -/

/-- The subnet step on a subnet with no co-located services. -/
theorem layoutSubnetStep_eq_empty (config : LayoutConfig) (az_pos : Position)
    (sbs : List (String × List LogicalService)) (m : PosMap) (y : ℚ)
    (subnet : Subnet)
    (he : (subnetServices sbs subnet.resource_id).isEmpty = true) :
    layoutSubnetStep config az_pos sbs (m, y) subnet =
      (posInsert m subnet.resource_id
        ⟨az_pos.x + 10, y, az_pos.width - 2 * 10, 60⟩, y + 60 + 10) := by
  simp [layoutSubnetStep, he]

/-- The subnet step on a subnet with co-located services: the subnet box
grows and the services are folded in from the 15px margin. -/
theorem layoutSubnetStep_eq_nonempty (config : LayoutConfig)
    (az_pos : Position) (sbs : List (String × List LogicalService))
    (m : PosMap) (y : ℚ) (subnet : Subnet)
    (hne : (subnetServices sbs subnet.resource_id).isEmpty = false) :
    layoutSubnetStep config az_pos sbs (m, y) subnet =
      (((subnetServices sbs subnet.resource_id).foldl
          (placeServiceStep config
            (y + 8 + (max 60 (config.icon_size + 56) -
              (config.icon_size + 44)) / 2))
          (posInsert m subnet.resource_id
            ⟨az_pos.x + 10, y, az_pos.width - 2 * 10,
              max 60 (config.icon_size + 56)⟩,
           az_pos.x + 10 + 15)).1,
       y + max 60 (config.icon_size + 56) + 10) := by
  simp [layoutSubnetStep, hne]

/-- The subnet box recorded by one subnet step. -/
theorem subnetStep_subnet_pos (config : LayoutConfig) (az_pos : Position)
    (sbs : List (String × List LogicalService)) (m : PosMap) (y : ℚ)
    (subnet : Subnet) :
    posGet ((layoutSubnetStep config az_pos sbs (m, y) subnet).1)
        subnet.resource_id =
      some ⟨az_pos.x + 10, y, az_pos.width - 2 * 10,
        if (subnetServices sbs subnet.resource_id).isEmpty then (60 : ℚ)
        else max 60 (config.icon_size + 56)⟩ := by
  by_cases he : (subnetServices sbs subnet.resource_id).isEmpty = true
  · rw [layoutSubnetStep_eq_empty config az_pos sbs m y subnet he, if_pos he]
    exact posGet_posInsert_self _ _ _
  · have hne : (subnetServices sbs subnet.resource_id).isEmpty = false := by
      simpa using he
    rw [layoutSubnetStep_eq_nonempty config az_pos sbs m y subnet hne,
      if_neg (by simp [hne])]
    exact placeRow_preserve _ _ _ _ _ _ _ (posGet_posInsert_self _ _ _)

/-- The position of the i-th co-located service of a subnet after one
subnet step, under fresh distinct ids. -/
theorem subnetStep_service_pos (config : LayoutConfig) (az_pos : Position)
    (sbs : List (String × List LogicalService)) (m : PosMap) (y : ℚ)
    (subnet : Subnet)
    (hfresh : ∀ s ∈ subnetServices sbs subnet.resource_id,
      posHas m s.id = false)
    (hnotsub : ∀ s ∈ subnetServices sbs subnet.resource_id,
      s.id ≠ subnet.resource_id)
    (hnd : ((subnetServices sbs subnet.resource_id).map
      (fun s => s.id)).Nodup) :
    ∀ (i : Nat) (svc : LogicalService),
      (subnetServices sbs subnet.resource_id).get? i = some svc →
      posGet ((layoutSubnetStep config az_pos sbs (m, y) subnet).1) svc.id =
        some ⟨az_pos.x + 10 + 15 + (i : ℚ) * (config.icon_size + 26),
          y + 8 + (max 60 (config.icon_size + 56) -
            (config.icon_size + 44)) / 2,
          config.icon_size, config.icon_size⟩ := by
  intro i svc hget
  have hne : (subnetServices sbs subnet.resource_id).isEmpty = false := by
    rcases List.get?_eq_some.mp hget with ⟨hlt, _⟩
    rcases hempty : subnetServices sbs subnet.resource_id with _ | _
    · rw [hempty] at hlt
      simp at hlt
    · simp
  rw [layoutSubnetStep_eq_nonempty config az_pos sbs m y subnet hne]
  have hfresh2 : ∀ s ∈ subnetServices sbs subnet.resource_id,
      posHas (posInsert m subnet.resource_id
        ⟨az_pos.x + 10, y, az_pos.width - 2 * 10,
          max 60 (config.icon_size + 56)⟩) s.id = false := by
    intro s hs
    rw [posHas_posInsert_ne _ _ _ _ (fun hc => hnotsub s hs hc.symm)]
    exact hfresh s hs
  exact placeRow_places config _ (subnetServices sbs subnet.resource_id) _
    (az_pos.x + 10 + 15) hfresh2 hnd i svc hget

/-- Bindings for keys other than the subnet id survive a subnet step. -/
theorem subnetStep_preserve (config : LayoutConfig) (az_pos : Position)
    (sbs : List (String × List LogicalService)) (m : PosMap) (y : ℚ)
    (subnet : Subnet) (k : String) (v : Position)
    (hk : k ≠ subnet.resource_id) (h : posGet m k = some v) :
    posGet ((layoutSubnetStep config az_pos sbs (m, y) subnet).1) k =
      some v := by
  by_cases he : (subnetServices sbs subnet.resource_id).isEmpty = true
  · rw [layoutSubnetStep_eq_empty config az_pos sbs m y subnet he]
    rw [posGet_posInsert_ne _ _ _ _ (fun hc => hk hc.symm)]
    exact h
  · have hne : (subnetServices sbs subnet.resource_id).isEmpty = false := by
      simpa using he
    rw [layoutSubnetStep_eq_nonempty config az_pos sbs m y subnet hne]
    refine placeRow_preserve _ _ _ _ _ _ _ ?_
    rw [posGet_posInsert_ne _ _ _ _ (fun hc => hk hc.symm)]
    exact h

/-- A key absent before a subnet step of another subnet, unequal to the
subnet id and to every id placed there, stays absent. -/
theorem subnetStep_posHas_false (config : LayoutConfig) (az_pos : Position)
    (sbs : List (String × List LogicalService)) (m : PosMap) (y : ℚ)
    (subnet : Subnet) (k : String)
    (hk1 : k ≠ subnet.resource_id)
    (hk2 : ∀ s ∈ subnetServices sbs subnet.resource_id, s.id ≠ k)
    (h : posHas m k = false) :
    posHas ((layoutSubnetStep config az_pos sbs (m, y) subnet).1) k =
      false := by
  have h1 : ∀ hh : Position, posHas (posInsert m subnet.resource_id hh) k
      = false := by
    intro hh
    rw [posHas_posInsert_ne _ _ _ _ (fun hc => hk1 hc.symm)]
    exact h
  by_cases he : (subnetServices sbs subnet.resource_id).isEmpty = true
  · rw [layoutSubnetStep_eq_empty config az_pos sbs m y subnet he]
    exact h1 _
  · have hne : (subnetServices sbs subnet.resource_id).isEmpty = false := by
      simpa using he
    rw [layoutSubnetStep_eq_nonempty config az_pos sbs m y subnet hne]
    exact placeRow_posHas_false _ _ _ _ _ _ (h1 _) hk2

/-- A binding whose key is no subnet id survives the whole subnet fold. -/
theorem subnetsFold_preserve (config : LayoutConfig) (az_pos : Position)
    (sbs : List (String × List LogicalService)) :
    ∀ (subnets : List Subnet) (st : PosMap × ℚ) (k : String) (v : Position),
    (∀ s ∈ subnets, k ≠ s.resource_id) →
    posGet st.1 k = some v →
    posGet ((subnets.foldl (layoutSubnetStep config az_pos sbs) st).1) k =
      some v := by
  intro subnets
  induction subnets with
  | nil => intro st k v _ h; exact h
  | cons a rest ih =>
      intro st k v hk h
      rcases st with ⟨m, y⟩
      rw [List.foldl_cons]
      exact ih _ k v (fun s hs => hk s (List.mem_cons_of_mem _ hs))
        (subnetStep_preserve config az_pos sbs m y a k v
          (hk a (List.mem_cons_self _ _)) h)

/-- Positions recorded by the subnet fold of _layout_subnets: each subnet
box sits at the AZ left margin with the inherited width, and each of its
co-located services is placed from the 15px margin, spaced by
icon + 26, vertically centered in the grown box — for fresh,
pairwise-distinct ids. -/
theorem subnetsFold_facts (config : LayoutConfig) (az_pos : Position)
    (sbs : List (String × List LogicalService)) :
    ∀ (subnets : List Subnet) (m : PosMap) (y : ℚ),
    ((subnets.map (fun s => s.resource_id)).Nodup) →
    (((subnets.flatMap (fun s => subnetServices sbs s.resource_id)).map
      (fun v => v.id)).Nodup) →
    (∀ s ∈ subnets, ∀ v ∈ subnetServices sbs s.resource_id,
      posHas m v.id = false) →
    (∀ s ∈ subnets, ∀ t ∈ subnets, ∀ v ∈ subnetServices sbs t.resource_id,
      v.id ≠ s.resource_id) →
    ∀ s ∈ subnets, ∃ ysb : ℚ,
      posGet ((subnets.foldl (layoutSubnetStep config az_pos sbs)
          (m, y)).1) s.resource_id =
        some ⟨az_pos.x + 10, ysb, az_pos.width - 2 * 10,
          if (subnetServices sbs s.resource_id).isEmpty then (60 : ℚ)
          else max 60 (config.icon_size + 56)⟩ ∧
      ∀ (i : Nat) (svc : LogicalService),
        (subnetServices sbs s.resource_id).get? i = some svc →
        posGet ((subnets.foldl (layoutSubnetStep config az_pos sbs)
            (m, y)).1) svc.id =
          some ⟨az_pos.x + 10 + 15 + (i : ℚ) * (config.icon_size + 26),
            ysb + 8 + (max 60 (config.icon_size + 56) -
              (config.icon_size + 44)) / 2,
            config.icon_size, config.icon_size⟩ := by
  intro subnets
  induction subnets with
  | nil => intro m y _ _ _ _ s hs; cases hs
  | cons a rest ih =>
      intro m y hnd hflat hfresh hsvcsub s hs
      have hnd1 : a.resource_id ∉ rest.map (fun s => s.resource_id) :=
        (List.nodup_cons.mp (by simpa using hnd)).1
      have hnd2 : (rest.map (fun s => s.resource_id)).Nodup :=
        (List.nodup_cons.mp (by simpa using hnd)).2
      have hsplit : (((subnetServices sbs a.resource_id).map
            (fun v => v.id)) ++
          ((rest.flatMap (fun s => subnetServices sbs s.resource_id)).map
            (fun v => v.id))).Nodup := by
        have h0 := hflat
        rw [List.flatMap_cons, List.map_append] at h0
        exact h0
      have hA : ((subnetServices sbs a.resource_id).map
          (fun v => v.id)).Nodup := (List.nodup_append.mp hsplit).1
      have hR : ((rest.flatMap (fun s =>
          subnetServices sbs s.resource_id)).map
          (fun v => v.id)).Nodup := (List.nodup_append.mp hsplit).2.1
      have hDisj := (List.nodup_append.mp hsplit).2.2
      rw [List.foldl_cons]
      rcases List.mem_cons.mp hs with hsa | hs2
      · subst hsa
        refine ⟨y, ?_, ?_⟩
        · refine subnetsFold_preserve config az_pos sbs rest _ _ _ ?_
            (subnetStep_subnet_pos config az_pos sbs m y s)
          intro t ht hc
          exact hnd1 (hc ▸ List.mem_map_of_mem _ ht)
        · intro i svc hget
          have hmem : svc ∈ subnetServices sbs s.resource_id :=
            List.get?_mem hget
          refine subnetsFold_preserve config az_pos sbs rest _ _ _ ?_
            (subnetStep_service_pos config az_pos sbs m y s
              (hfresh s (List.mem_cons_self _ _))
              (fun v hv => hsvcsub s (List.mem_cons_self _ _) s
                (List.mem_cons_self _ _) v hv)
              hA i svc hget)
          intro t ht
          exact hsvcsub t (List.mem_cons_of_mem _ ht) s
            (List.mem_cons_self _ _) svc hmem
      · have hfresh2 : ∀ t ∈ rest, ∀ v ∈ subnetServices sbs t.resource_id,
            posHas ((layoutSubnetStep config az_pos sbs (m, y) a).1) v.id =
              false := by
          intro t ht v hv
          refine subnetStep_posHas_false config az_pos sbs m y a v.id
            (hsvcsub a (List.mem_cons_self _ _) t
              (List.mem_cons_of_mem _ ht) v hv)
            ?_ (hfresh t (List.mem_cons_of_mem _ ht) v hv)
          intro u hu hc
          refine hDisj (List.mem_map_of_mem _ hu) ?_
          rw [hc]
          exact List.mem_map_of_mem _ (List.mem_flatMap.mpr ⟨t, ht, hv⟩)
        have hsvcsub2 : ∀ t ∈ rest, ∀ u ∈ rest,
            ∀ v ∈ subnetServices sbs u.resource_id, v.id ≠ t.resource_id :=
          fun t ht u hu v hv => hsvcsub t (List.mem_cons_of_mem _ ht) u
            (List.mem_cons_of_mem _ hu) v hv
        exact ih _ _ hnd2 hR hfresh2 hsvcsub2 s hs2

/-- C8 counterexample: thirteen de-grouped VPC services co-located in one
subnet of a one-AZ VPC, laid out by _layout_subnets at the AZ box that
compute_layout produces for this input at the default configuration
(scale 1). The subnet box is (105, 275, 1100, 120) but the thirteenth
service is placed at (1200, 289, 64, 64), whose right edge 1264 exceeds
the subnet right edge 1205: the service rectangle is not enclosed in its
subnet rectangle, refuting the claim as stated. -/
theorem layout_subnets_overflow_counterexample :
    (c8Service 13).subnet_ids = [c8Subnet.resource_id] ∧
    c8Subnet ∈ c8Az.subnets ∧
    posGet (layout_subnets {} c8Az c8AzPos c8Sws [] [])
      c8Subnet.resource_id = some ⟨105, 275, 1100, 120⟩ ∧
    posGet (layout_subnets {} c8Az c8AzPos c8Sws [] [])
      (c8Service 13).id = some ⟨1200, 289, 64, 64⟩ ∧
    ¬ insideRect ⟨1200, 289, 64, 64⟩ ⟨105, 275, 1100, 120⟩ := by
  have hls : layout_subnets {} c8Az c8AzPos c8Sws [] [] =
      (layoutSubnetStep {} c8AzPos (servicesBySubnet c8Sws [])
        (([] : PosMap), c8AzPos.y + 30) c8Subnet).1 := by
    simp [layout_subnets, c8Az]
  have hbne : (subnetServices (servicesBySubnet c8Sws [])
      c8Subnet.resource_id).isEmpty = false := rfl
  have hmax : max (60 : ℚ) (({} : LayoutConfig).icon_size + 56) = 120 := by
    rw [max_eq_right (by norm_num)]
    norm_num
  refine ⟨rfl, List.mem_cons_self _ _, ?_, ?_, ?_⟩
  · rw [hls]
    have h1 := subnetStep_subnet_pos {} c8AzPos (servicesBySubnet c8Sws [])
      [] (c8AzPos.y + 30) c8Subnet
    rw [if_neg (by rw [hbne]; simp)] at h1
    rw [h1, hmax]
    rw [Option.some.injEq, Position.mk.injEq]
    refine ⟨by norm_num [c8AzPos], by norm_num [c8AzPos],
      by norm_num [c8AzPos], rfl⟩
  · rw [hls]
    have h2 := subnetStep_service_pos {} c8AzPos (servicesBySubnet c8Sws [])
      [] (c8AzPos.y + 30) c8Subnet
      (fun v _ => rfl) (by decide) (by decide) 12 (c8Service 13) rfl
    rw [h2, hmax]
    rw [Option.some.injEq, Position.mk.injEq]
    refine ⟨by norm_num [c8AzPos], by norm_num [c8AzPos], rfl, rfl⟩
  · rw [insideRect]
    push_neg
    intro _ _ h
    exfalso
    norm_num at h

/-- C8 (amended): in _layout_subnets, when the row of co-located services
fits in the subnet width (25px of left margins plus the icon row no wider
than the subnet box, which the code never enforces by wrapping), every
service whose subnet_ids resolves to a subnet of the AZ is assigned a
Position rectangle fully enclosed in that subnet's Position rectangle,
also when several services are co-located in the same subnet — under
fresh, pairwise-distinct subnet and service ids. -/
theorem layout_subnets_containment (config : LayoutConfig)
    (az : AvailabilityZone) (az_pos : Position)
    (sws : List LogicalService) (aws_map : List (Attr × String)) (m : PosMap)
    (hicon : 0 ≤ config.icon_size)
    (hnd : (az.subnets.map (fun s => s.resource_id)).Nodup)
    (hflat : ((az.subnets.flatMap (fun s =>
      subnetServices (servicesBySubnet sws aws_map) s.resource_id)).map
      (fun v => v.id)).Nodup)
    (hfresh : ∀ s ∈ az.subnets,
      ∀ v ∈ subnetServices (servicesBySubnet sws aws_map) s.resource_id,
      posHas m v.id = false)
    (hsvcsub : ∀ s ∈ az.subnets, ∀ t ∈ az.subnets,
      ∀ v ∈ subnetServices (servicesBySubnet sws aws_map) t.resource_id,
      v.id ≠ s.resource_id)
    (s : Subnet) (hs : s ∈ az.subnets) (svc : LogicalService)
    (hsvc : svc ∈ subnetServices (servicesBySubnet sws aws_map)
      s.resource_id)
    (hfit : 25 + (((subnetServices (servicesBySubnet sws aws_map)
        s.resource_id).length : ℚ) - 1) * (config.icon_size + 26) +
        config.icon_size ≤ az_pos.width - 10) :
    ∃ ps pv,
      posGet (layout_subnets config az az_pos sws aws_map m)
        s.resource_id = some ps ∧
      posGet (layout_subnets config az az_pos sws aws_map m)
        svc.id = some pv ∧
      insideRect pv ps := by
  have hif : az.subnets.isEmpty = false := by
    rcases hsub : az.subnets with _ | _
    · rw [hsub] at hs
      cases hs
    · rfl
  have hls : layout_subnets config az az_pos sws aws_map m =
      (az.subnets.foldl
        (layoutSubnetStep config az_pos (servicesBySubnet sws aws_map))
        (m, az_pos.y + 30)).1 := by
    simp [layout_subnets, hif]
  obtain ⟨ysb, hsubpos, hsvcpos⟩ :=
    subnetsFold_facts config az_pos (servicesBySubnet sws aws_map)
      az.subnets m (az_pos.y + 30) hnd hflat hfresh hsvcsub s hs
  obtain ⟨i, hget⟩ := List.mem_iff_get?.mp hsvc
  have hbne : (subnetServices (servicesBySubnet sws aws_map)
      s.resource_id).isEmpty = false := by
    rcases hb : subnetServices (servicesBySubnet sws aws_map)
        s.resource_id with _ | _
    · rw [hb] at hsvc
      cases hsvc
    · rfl
  rw [if_neg (by rw [hbne]; simp)] at hsubpos
  have hlt : i < (subnetServices (servicesBySubnet sws aws_map)
      s.resource_id).length := (List.get?_eq_some.mp hget).1
  have hile : (i : ℚ) ≤ ((subnetServices (servicesBySubnet sws aws_map)
      s.resource_id).length : ℚ) - 1 := by
    have h1 : (i : ℚ) + 1 ≤ ((subnetServices (servicesBySubnet sws aws_map)
        s.resource_id).length : ℚ) := by
      exact_mod_cast Nat.succ_le_of_lt hlt
    linarith
  have hmax : config.icon_size + 56 ≤ max 60 (config.icon_size + 56) :=
    le_max_right _ _
  have hstep : (i : ℚ) * (config.icon_size + 26) ≤
      (((subnetServices (servicesBySubnet sws aws_map)
        s.resource_id).length : ℚ) - 1) * (config.icon_size + 26) :=
    mul_le_mul_of_nonneg_right hile (by linarith)
  have histep : 0 ≤ (i : ℚ) * (config.icon_size + 26) :=
    mul_nonneg (Nat.cast_nonneg i) (by linarith)
  refine ⟨_, _, by rw [hls]; exact hsubpos,
    by rw [hls]; exact hsvcpos i svc hget, ?_⟩
  rw [insideRect]
  refine ⟨by simp only []; linarith, by simp only []; linarith,
    by simp only []; linarith, by simp only []; linarith⟩

/-- Witness for the amended C8 theorem: two co-located services fit in
the subnet row, and each is indeed enclosed in the subnet box. -/
theorem layout_subnets_containment_witness :
    ∃ ps pv,
      posGet (layout_subnets {} c8Az c8AzPos c8wSws [] [])
        c8Subnet.resource_id = some ps ∧
      posGet (layout_subnets {} c8Az c8AzPos c8wSws [] [])
        (c8Service 1).id = some pv ∧
      insideRect pv ps := by
  refine layout_subnets_containment {} c8Az c8AzPos c8wSws [] []
    (by norm_num) (by decide) (by decide)
    (fun s _ v _ => rfl) (by decide)
    c8Subnet (List.mem_cons_self _ _) (c8Service 1) ?_ ?_
  · rw [show subnetServices (servicesBySubnet c8wSws [])
      c8Subnet.resource_id = [c8Service 1, c8Service 2] from rfl]
    exact List.mem_cons_self _ _
  · rw [show (subnetServices (servicesBySubnet c8wSws [])
      c8Subnet.resource_id).length = 2 from rfl]
    norm_num [c8AzPos]

end TG
